import Mathlib

/-!
Shallow embedding of the TrafficViz traffic-network simulation core
(server/services/simulationOrchestrator.ts, the AI engine classes bundled
with it, and the grid network initializer in the storage module), together
with theorems settling the specification claims about it.

Numeric fields of the TypeScript code (JS `number`) are modelled as exact
rationals `ℚ`; JS `Infinity` appears only in the Dijkstra routine and is
modelled explicitly by the `JNum` type there.  JS `Record`s and `Map`s are
modelled as association lists with first-match lookup.
-/

namespace TrafficViz

/-! ## Association-list maps (JS Record / Map) -/

/-- First-match lookup, as JS `map.get(k)` / `record[k]`. -/
def findA {α : Type} : List (String × α) → String → Option α
  | [], _ => none
  | (k', v) :: rest, k => if k' = k then some v else findA rest k

/-- Replace the binding of `k` (first occurrence) or append it,
as JS `map.set(k, v)` / `record[k] = v`. -/
def setA {α : Type} : List (String × α) → String → α → List (String × α)
  | [], k, v => [(k, v)]
  | (k', v') :: rest, k, v =>
      if k' = k then (k, v) :: rest else (k', v') :: setA rest k v

/-- Remove the binding of `k`, as JS `delete record[k]`. -/
def eraseA {α : Type} : List (String × α) → String → List (String × α)
  | [], _ => []
  | (k', v') :: rest, k =>
      if k' = k then rest else (k', v') :: eraseA rest k

/-- Keys of an association list. -/
def keysA {α : Type} (l : List (String × α)) : List String := l.map Prod.fst

/-- Well-formedness of a JS record: no duplicate keys. -/
def NodupKeys {α : Type} (l : List (String × α)) : Prop := (keysA l).Nodup

/-! ## Data model (shared/schema.ts) -/

/-- Signal colors `'red' | 'yellow' | 'green'`. -/
inductive Color | red | yellow | green
deriving DecidableEq

/-- Compass directions `'north' | 'east' | 'south' | 'west'`. -/
inductive Dir | north | east | south | west
deriving DecidableEq

/-- Signal phases `'NS' | 'EW'`. -/
inductive Phase | NS | EW
deriving DecidableEq

/-- Recommended actions `'NS' | 'EW' | 'HOLD'`. -/
inductive Action | NS | EW | HOLD
deriving DecidableEq

/-- Vehicle priority classes. -/
inductive Priority | normal | emergency | public_transport
deriving DecidableEq

/-- Vehicle classes. -/
inductive VehicleType | car | truck | bus | motorcycle | emerg
deriving DecidableEq

/-- `TrafficSignalState` from shared/schema.ts. -/
structure TrafficSignalState where
  northSouth : Color
  eastWest : Color
  currentPhase : Phase
  phaseTimeRemaining : ℚ
  nextPhaseTime : ℚ
deriving DecidableEq

/-- `IncomingPlatoon` from shared/schema.ts. -/
structure IncomingPlatoon where
  direction : Dir
  vehicleCount : ℚ
  eta : ℚ
  speed : ℚ
deriving DecidableEq

/-- `RouteSegment` from shared/schema.ts. -/
structure RouteSegment where
  roadId : String
  fromIntersectionId : String
  toIntersectionId : String
  distanceRemaining : ℚ
deriving DecidableEq

/-- 2D `Position` from shared/schema.ts. -/
structure Position where
  x : ℚ
  y : ℚ
deriving DecidableEq

/-- `Vehicle` from shared/schema.ts. -/
structure Vehicle where
  id : String
  currentRoadId : Option String
  currentIntersectionId : Option String
  destinationIntersectionId : String
  route : List RouteSegment
  routeProgress : ℚ
  speed : ℚ
  position : Position
  waitTime : ℚ
  priority : Priority
  vehicleType : VehicleType
deriving DecidableEq

/-- `Road` from shared/schema.ts. -/
structure Road where
  id : String
  fromIntersectionId : String
  toIntersectionId : String
  lanes : ℚ
  length : ℚ
  speedLimit : ℚ
  direction : Dir
  capacity : ℚ
  currentFlow : ℚ
  travelTime : ℚ
deriving DecidableEq

/-- `TrafficMetrics` from shared/schema.ts. -/
structure TrafficMetrics where
  id : String
  timestamp : ℚ
  averageWaitTime : ℚ
  totalQueueLength : ℚ
  throughput : ℚ
  efficiency : ℚ
  northQueue : ℚ
  eastQueue : ℚ
  southQueue : ℚ
  westQueue : ℚ
deriving DecidableEq

/-- `AIDecisionData.guardianChecks` from shared/schema.ts. -/
structure GuardianCheckFlags where
  minGreenTime : Bool
  safeTransition : Bool
  systemHealth : Bool
deriving DecidableEq

/-- `AIDecisionData.timingPlan` from shared/schema.ts. -/
structure TimingPlan where
  startTime : ℚ
  duration : ℚ
  endTime : ℚ
deriving DecidableEq

/-- `AIDecisionData` from shared/schema.ts (the optional `intersectionId`
is assigned by the orchestrator after the decision is made). -/
structure AIDecisionData where
  predictorNorthSouth : ℚ
  predictorEastWest : ℚ
  recommendedAction : Action
  guardianChecks : GuardianCheckFlags
  timingPlan : TimingPlan
  pressureNorthSouth : ℚ
  pressureEastWest : ℚ
deriving DecidableEq

/-- `Intersection` from shared/schema.ts. -/
structure Intersection where
  id : String
  name : String
  position : Position
  signalState : TrafficSignalState
  metrics : TrafficMetrics
  incomingPlatoons : List IncomingPlatoon
  aiDecision : AIDecisionData
  isActive : Bool
deriving DecidableEq

/-- Per-intersection queues (`IntersectionQueues` in simulationOrchestrator.ts). -/
structure IntersectionQueues where
  north : List String
  east : List String
  south : List String
  west : List String
deriving DecidableEq

/-- The queue list of one direction. -/
def IntersectionQueues.get (q : IntersectionQueues) : Dir → List String
  | .north => q.north
  | .east => q.east
  | .south => q.south
  | .west => q.west

/-- Replace the queue list of one direction. -/
def IntersectionQueues.set (q : IntersectionQueues) : Dir → List String → IntersectionQueues
  | .north, l => { q with north := l }
  | .east, l => { q with east := l }
  | .south, l => { q with south := l }
  | .west, l => { q with west := l }

/-- The empty queue record created by `SimulationOrchestrator.start`. -/
def emptyQueues : IntersectionQueues := ⟨[], [], [], []⟩

/-- The part of `NetworkState` the movement/queue machinery reads and
writes, together with the orchestrator's private queue map. -/
structure SimState where
  intersections : List (String × Intersection)
  roads : List (String × Road)
  vehicles : List (String × Vehicle)
  queues : List (String × IntersectionQueues)
deriving DecidableEq

/-! ## Signal admissibility (canVehicleProceedThroughIntersection) -/

/-- `canVehicleProceedThroughIntersection` from simulationOrchestrator.ts
(lines 430-464).  Of the `NetworkState` argument only `state.roads` is
read, so the roads map is passed directly. -/
def canVehicleProceedThroughIntersection (vehicle : Vehicle) (intersection : Intersection)
    (roads : List (String × Road)) : Bool :=
  match vehicle.route with
  | [] => true
  | nextSegment :: _ =>
    if vehicle.priority = Priority.emergency then true
    else
      match findA roads nextSegment.roadId with
      | none => false
      | some nextRoad =>
        let roadDirection := nextRoad.direction
        let signalState := intersection.signalState
        let canProceed : Bool :=
          match signalState.currentPhase with
          | Phase.NS =>
              decide (roadDirection = Dir.north ∨ roadDirection = Dir.south) &&
              decide (signalState.northSouth = Color.green)
          | Phase.EW =>
              decide (roadDirection = Dir.east ∨ roadDirection = Dir.west) &&
              decide (signalState.eastWest = Color.green)
        if signalState.northSouth = Color.yellow ∨ signalState.eastWest = Color.yellow then
          false
        else canProceed

/-! ## Queue manager -/

/-- `enqueueVehicleAtIntersection` from simulationOrchestrator.ts
(lines 360-376): append the vehicle id to the direction queue of its next
road, if not already present there. -/
def enqueueVehicleAtIntersection (vehicle : Vehicle) (intersectionId : String)
    (roads : List (String × Road)) (queues : List (String × IntersectionQueues)) :
    List (String × IntersectionQueues) :=
  match vehicle.route with
  | [] => queues
  | nextSegment :: _ =>
    match findA roads nextSegment.roadId with
    | none => queues
    | some nextRoad =>
      match findA queues intersectionId with
      | none => queues
      | some q =>
        let direction := nextRoad.direction
        if vehicle.id ∈ q.get direction then queues
        else setA queues intersectionId (q.set direction (q.get direction ++ [vehicle.id]))

/-- `dequeueVehicleFromIntersection` from simulationOrchestrator.ts
(lines 381-393): remove the first occurrence of the vehicle id from each
of the four direction queues (`indexOf` + `splice`). -/
def dequeueVehicleFromIntersection (vehicleId : String) (intersectionId : String)
    (queues : List (String × IntersectionQueues)) : List (String × IntersectionQueues) :=
  match findA queues intersectionId with
  | none => queues
  | some q =>
      setA queues intersectionId
        ⟨q.north.erase vehicleId, q.east.erase vehicleId,
         q.south.erase vehicleId, q.west.erase vehicleId⟩

/-- The allowed directions computed by `processIntersectionQueues`. -/
def releaseDirections (intersection : Intersection) : List Dir :=
  if intersection.signalState.currentPhase = Phase.NS ∧
      intersection.signalState.northSouth = Color.green then
    [Dir.north, Dir.south]
  else if intersection.signalState.currentPhase = Phase.EW ∧
      intersection.signalState.eastWest = Color.green then
    [Dir.east, Dir.west]
  else []

/-- The body of the inner loop of `processIntersectionQueues`: release a
single queued vehicle id if it still exists and is at this intersection. -/
def releaseQueueVehicle (intersection : Intersection) (vehicles : List (String × Vehicle))
    (queues : List (String × IntersectionQueues)) (vehicleId : String) :
    List (String × IntersectionQueues) :=
  match findA vehicles vehicleId with
  | none => queues
  | some vehicle =>
      if vehicle.currentIntersectionId = some intersection.id then
        dequeueVehicleFromIntersection vehicleId intersection.id queues
      else queues

/-- `processIntersectionQueues` from simulationOrchestrator.ts
(lines 398-425): on a phase change, release all queued vehicles in the
newly green directions.  The inner loop iterates over a copy of the live
queue of each direction, so the copy is re-read from the current queues
map at the start of each direction. -/
def processIntersectionQueues (intersection : Intersection)
    (vehicles : List (String × Vehicle))
    (queues : List (String × IntersectionQueues)) : List (String × IntersectionQueues) :=
  match findA queues intersection.id with
  | none => queues
  | some _ =>
      (releaseDirections intersection).foldl
        (fun qs direction =>
          let queueCopy :=
            match findA qs intersection.id with
            | some q => q.get direction
            | none => []
          queueCopy.foldl (fun qs2 vid => releaseQueueVehicle intersection vehicles qs2 vid) qs)
        queues

/-! ## Road occupancy -/

/-- The free-flow travel time `(road.length / 1000) / (road.speedLimit / 3.6)`
computed by `updateRoadOccupancy`. -/
def baseTravelTime (road : Road) : ℚ :=
  (road.length / 1000) / (road.speedLimit / (36 / 10))

/-- `updateRoadOccupancy` from simulationOrchestrator.ts (lines 342-355):
recompute a road's flow and congestion-adjusted travel time from the
vehicles currently on it. -/
def updateRoadOccupancy (road : Road) (vehicles : List (String × Vehicle)) : Road :=
  let vehiclesOnRoad := vehicles.filter (fun p => decide (p.2.currentRoadId = some road.id))
  let newFlow : ℚ := min (vehiclesOnRoad.length : ℚ) road.capacity
  let congestionFactor := newFlow / road.capacity
  { road with
    currentFlow := newFlow
    travelTime := baseTravelTime road * (1 + congestionFactor * 2) }

/-! ## Guardian safety (src/unnamed/part_006, GuardianSafety) -/

/-- `GuardianSafety.MIN_GREEN_TIME` (src/unnamed/part_006 line 89): 5000 ms. -/
def MIN_GREEN_TIME : ℚ := 5000

/-- `GuardianSafety.MAX_GREEN_TIME` (src/unnamed/part_006 line 90): 45000 ms,
the maximum green time used by the anti-starvation override. -/
def MAX_GREEN_TIME : ℚ := 45000

/-- The result record of `GuardianSafety.validateDecision`. -/
structure GuardianChecksResult where
  minGreenTime : Bool
  safeTransition : Bool
  systemHealth : Bool
  approved : Bool
deriving DecidableEq

/-- `GuardianSafety.canSafelyTransition`: staying in the current phase is
always allowed; otherwise a transition is blocked while either direction
is yellow. -/
def canSafelyTransition (current : TrafficSignalState) (target : Phase) : Bool :=
  if current.currentPhase = target then true
  else if current.northSouth = Color.yellow ∨ current.eastWest = Color.yellow then false
  else true

/-- `GuardianSafety.validateDecision` (src/unnamed/part_006 lines 92-124),
with the wall clock `now` (`Date.now()`) and the mutable field
`lastPhaseChangeTime` passed in and the updated field returned.  The
`checks.minGreenTime` flag is first set to `timeInPhase >= MIN_GREEN_TIME`
and then overridden to `true` once `timeInPhase >= MAX_GREEN_TIME`
(anti-starvation). -/
def validateDecision (recommendation : Phase) (currentSignal : TrafficSignalState)
    (systemHealth : Bool) (now lastPhaseChangeTime : ℚ) : GuardianChecksResult × ℚ :=
  let timeInPhase := now - lastPhaseChangeTime
  let minGreen0 : Bool := decide (MIN_GREEN_TIME ≤ timeInPhase)
  let safe := canSafelyTransition currentSignal recommendation
  let minGreen : Bool := if MAX_GREEN_TIME ≤ timeInPhase then true else minGreen0
  let approved := minGreen && safe && systemHealth
  let newLast :=
    if approved = true ∧ currentSignal.currentPhase ≠ recommendation then now
    else lastPhaseChangeTime
  ({ minGreenTime := minGreen, safeTransition := safe,
     systemHealth := systemHealth, approved := approved }, newLast)

/-! ## AI engine (src/unnamed/part_006, AIEngine) -/

/-- The direction filter used by `calculateVehicleLoad`,
`calculateOptimalStartTime` and `PredictorDQN.calculatePressure`. -/
def phaseDirections (phase : Phase) (d : Dir) : Bool :=
  match phase with
  | Phase.NS => decide (d = Dir.north ∨ d = Dir.south)
  | Phase.EW => decide (d = Dir.east ∨ d = Dir.west)

/-- `AIEngine.calculateVehicleLoad`: total vehicle count of the platoons
in the phase's directions. -/
def calculateVehicleLoad (platoons : List IncomingPlatoon) (phase : Phase) : ℚ :=
  ((platoons.filter (fun p => phaseDirections phase p.direction)).map
    (fun p => p.vehicleCount)).sum

/-- `AIEngine.calculateOptimalStartTime` (src/unnamed/part_006 lines 205-216):
0 when no platoon approaches in the phase's directions, otherwise
`max(0, earliestETA - 3)`. -/
def calculateOptimalStartTime (platoons : List IncomingPlatoon) (phase : Phase) : ℚ :=
  match platoons.filter (fun p => phaseDirections phase p.direction) with
  | [] => 0
  | p :: rest => max 0 ((rest.map (fun x => x.eta)).foldl min p.eta - 3)

/-- JS `Math.round` (half-up) on exact rationals. -/
def jsRound (q : ℚ) : ℚ := ((⌊q + 1 / 2⌋ : ℤ) : ℚ)

/-- JS `Math.round(x * 100) / 100` used for the pressure analysis. -/
def jsRound2 (q : ℚ) : ℚ := jsRound (q * 100) / 100

/-- Pressure of one axis: `Σ vehicleCount / max(eta, 1)` over the
platoons of the axis's two directions. -/
def axisPressure (platoons : List IncomingPlatoon) (phase : Phase) : ℚ :=
  ((platoons.filter (fun p => phaseDirections phase p.direction)).map
    (fun p => p.vehicleCount / max p.eta 1)).sum

/-- `AIEngine.makeDecision` (src/unnamed/part_006 lines 143-194).  The
predictor (`PredictorDQN.predict`) perturbs its Q-table with unseeded
`Math.random` noise, so its output (`recommended`, `predictedNS`,
`predictedEW`) is passed in as an oracle; the wall clock `now` and the
guardian's mutable `lastPhaseChangeTime` state are likewise explicit.
`baseDuration = Math.max(8, Math.min(35, vehicleLoad / 2.5))` and
`bufferTime = 2`.  Returns the decision together with the guardian's
updated `lastPhaseChangeTime`. -/
def makeDecision (platoons : List IncomingPlatoon) (currentSignal : TrafficSignalState)
    (systemHealth : Bool) (recommended : Phase) (predictedNS predictedEW : ℚ)
    (now lastPhaseChangeTime : ℚ) : AIDecisionData × ℚ :=
  let guarded := validateDecision recommended currentSignal systemHealth now lastPhaseChangeTime
  let guardianChecks := guarded.1
  let vehicleLoad := calculateVehicleLoad platoons recommended
  let saturationFlow : ℚ := 2.5
  let baseDuration := max 8 (min 35 (vehicleLoad / saturationFlow))
  let bufferTime : ℚ := 2
  let totalDuration := baseDuration + bufferTime
  let startTime := max 0 (calculateOptimalStartTime platoons recommended)
  ({ predictorNorthSouth := predictedNS,
     predictorEastWest := predictedEW,
     recommendedAction :=
       if guardianChecks.approved then
         match recommended with
         | Phase.NS => Action.NS
         | Phase.EW => Action.EW
       else Action.HOLD,
     guardianChecks :=
       { minGreenTime := guardianChecks.minGreenTime,
         safeTransition := guardianChecks.safeTransition,
         systemHealth := guardianChecks.systemHealth },
     timingPlan :=
       { startTime := startTime,
         duration := jsRound totalDuration,
         endTime := startTime + jsRound totalDuration },
     pressureNorthSouth := jsRound2 (axisPressure platoons Phase.NS),
     pressureEastWest := jsRound2 (axisPressure platoons Phase.EW) }, guarded.2)

/-! ## Movement engine (updateVehicleMovement) -/

/-- The per-vehicle body of the `forEach` loop of `updateVehicleMovement`
(simulationOrchestrator.ts lines 240-336), as a function from the threaded
simulation state to the updated one.  `dt` is `deltaTime = 0.1` (100 ms).
Divisions are exact on `ℚ`; `road.length` is positive for every road the
program constructs (`insertRoadSchema` requires `length` positive and the
grid initializer uses 1000), so the JS division-by-zero behaviour of
`routeProgress` is never exercised. -/
def processVehicle (dt : ℚ) (vehicle : Vehicle) (st : SimState) : SimState :=
  match vehicle.route with
  | [] =>
      -- Vehicle reached destination - remove it
      { st with vehicles := eraseA st.vehicles vehicle.id }
  | currentSegment :: restRoute =>
    match vehicle.currentIntersectionId with
    | some intersectionId =>
      -- Handle vehicles currently at intersections (waiting in queue)
      match findA st.intersections intersectionId with
      | none => st
      | some intersection =>
        if canVehicleProceedThroughIntersection vehicle intersection st.roads then
          let queues1 := dequeueVehicleFromIntersection vehicle.id intersection.id st.queues
          let vehicle1 := { vehicle with currentIntersectionId := none }
          { st with vehicles := setA st.vehicles vehicle.id vehicle1, queues := queues1 }
        else
          let vehicle1 := { vehicle with waitTime := vehicle.waitTime + dt }
          let queues1 := enqueueVehicleAtIntersection vehicle1 intersection.id st.roads st.queues
          { st with vehicles := setA st.vehicles vehicle.id vehicle1, queues := queues1 }
    | none =>
      -- Handle vehicles moving along roads
      match findA st.roads currentSegment.roadId with
      | none => st
      | some road =>
        let speedMS := vehicle.speed * 1000 / 3600
        let movementDistance := speedMS * dt
        let approaching := decide (currentSegment.distanceRemaining ≤ movementDistance * 2)
        let stopped : Bool :=
          if approaching then
            match findA st.intersections currentSegment.toIntersectionId with
            | some toIntersection =>
                ! canVehicleProceedThroughIntersection vehicle toIntersection st.roads
            | none => false
          else false
        let movementDistance1 := if stopped then 0 else movementDistance
        let waitTime1 := if stopped then vehicle.waitTime + dt else vehicle.waitTime
        let newRemaining := currentSegment.distanceRemaining - movementDistance1
        let newProgress := 1 - newRemaining / road.length
        let newSegment := { currentSegment with distanceRemaining := newRemaining }
        let position1 :=
          match findA st.intersections currentSegment.fromIntersectionId,
                findA st.intersections currentSegment.toIntersectionId with
          | some fromI, some toI =>
              ({ x := fromI.position.x + (toI.position.x - fromI.position.x) * newProgress,
                 y := fromI.position.y + (toI.position.y - fromI.position.y) * newProgress } :
                Position)
          | _, _ => vehicle.position
        if newRemaining ≤ 0 then
          -- Check if reached intersection
          match findA st.intersections currentSegment.toIntersectionId with
          | some intersection =>
            let vehicleMid :=
              { vehicle with
                route := newSegment :: restRoute
                routeProgress := newProgress
                position := position1
                waitTime := waitTime1 }
            if canVehicleProceedThroughIntersection vehicleMid intersection st.roads then
              let vehicle1 :=
                { vehicleMid with
                  route := restRoute
                  currentIntersectionId := none
                  currentRoadId := none
                  routeProgress := 0 }
              let vehicles1 := setA st.vehicles vehicle.id vehicle1
              let roads1 := setA st.roads road.id (updateRoadOccupancy road vehicles1)
              { st with vehicles := vehicles1, roads := roads1 }
            else
              let vehicle1 :=
                { vehicleMid with
                  route := restRoute
                  currentIntersectionId := some currentSegment.toIntersectionId
                  currentRoadId := none
                  routeProgress := 0 }
              let queues1 := enqueueVehicleAtIntersection vehicle1 intersection.id st.roads st.queues
              let vehicle2 := { vehicle1 with waitTime := vehicle1.waitTime + dt }
              let vehicles1 := setA st.vehicles vehicle.id vehicle2
              let roads1 := setA st.roads road.id (updateRoadOccupancy road vehicles1)
              { st with vehicles := vehicles1, queues := queues1, roads := roads1 }
          | none =>
            let vehicle1 :=
              { vehicle with
                route := newSegment :: restRoute
                routeProgress := newProgress
                position := position1
                waitTime := waitTime1 }
            let vehicles1 := setA st.vehicles vehicle.id vehicle1
            let roads1 := setA st.roads road.id (updateRoadOccupancy road vehicles1)
            { st with vehicles := vehicles1, roads := roads1 }
        else
          let vehicle1 :=
            { vehicle with
              route := newSegment :: restRoute
              routeProgress := newProgress
              position := position1
              waitTime := waitTime1
              currentRoadId := some currentSegment.roadId
              currentIntersectionId := none }
          let vehicles1 := setA st.vehicles vehicle.id vehicle1
          let roads1 := setA st.roads road.id (updateRoadOccupancy road vehicles1)
          { st with vehicles := vehicles1, roads := roads1 }

/-- `updateVehicleMovement` (simulationOrchestrator.ts lines 237-337): one
movement pass.  The `forEach` iterates over a snapshot of
`Object.values(state.vehicles)` taken before any mutation; each iteration
mutates only its own vehicle (and the shared roads/queues), so folding the
per-vehicle body over the snapshot is an exact model. -/
def updateVehicleMovement (dt : ℚ) (st : SimState) : SimState :=
  (st.vehicles.map Prod.snd).foldl (fun acc v => processVehicle dt v acc) st

/-- Adding a freshly spawned vehicle to the network
(`spawnRandomVehicles` stores `state.vehicles[vehicle.id] = vehicle`). -/
def spawnVehicle (v : Vehicle) (st : SimState) : SimState :=
  { st with vehicles := setA st.vehicles v.id v }

/-! ## Route planner (calculateRoute, simulationOrchestrator.ts lines 151-232)

The distance table stores JS numbers that may be `Infinity`, and the code
reads it with `distances.get(node) || Infinity`, whose JS semantics turn
both a missing entry and a stored `0` (falsy) into `Infinity`.  `JNum`
models exactly the values that arise: finite rationals and `Infinity`. -/

/-- A JS number as used by the Dijkstra distance table. -/
inductive JNum
  | fin (q : ℚ)
  | inf
deriving DecidableEq

/-- JS `<` on these numbers. -/
def JNum.ltb : JNum → JNum → Bool
  | JNum.fin a, JNum.fin b => decide (a < b)
  | JNum.fin _, JNum.inf => true
  | JNum.inf, _ => false

/-- JS `+` on these numbers (finite + finite is finite; anything with
`Infinity` is `Infinity`; the code only adds a finite minimum to a
finite edge weight). -/
def JNum.add : JNum → JNum → JNum
  | JNum.fin a, JNum.fin b => JNum.fin (a + b)
  | _, _ => JNum.inf

/-- JS `distances.get(node) || Infinity`: a missing entry is `undefined`
(falsy) and a stored `0` is falsy, so both become `Infinity`. -/
def getOrInfinity (distances : List (String × JNum)) (node : String) : JNum :=
  match findA distances node with
  | none => JNum.inf
  | some (JNum.fin q) => if q = 0 then JNum.inf else JNum.fin q
  | some JNum.inf => JNum.inf

/-- An adjacency entry `{roadId, toId, weight}`. -/
structure Neighbor where
  roadId : String
  toId : String
  weight : ℚ
deriving DecidableEq

/-- A `previous` entry `{roadId, fromId}`. -/
structure PrevEntry where
  roadId : String
  fromId : String
deriving DecidableEq

/-- Adjacency map: one (initially empty) bucket per intersection, then
each road appended to the bucket of its `fromIntersectionId` (the `?.push`
is a no-op when that intersection is not in the map).  Edge weight is
`length/speedLimit + (currentFlow/capacity)*10`. -/
def buildAdjacency (intersections : List Intersection) (roads : List Road) :
    List (String × List Neighbor) :=
  let base := intersections.map (fun i => (i.id, ([] : List Neighbor)))
  roads.foldl
    (fun adj road =>
      match findA adj road.fromIntersectionId with
      | none => adj
      | some bucket =>
          setA adj road.fromIntersectionId
            (bucket ++ [{ roadId := road.id, toId := road.toIntersectionId,
                          weight := road.length / road.speedLimit +
                            road.currentFlow / road.capacity * 10 }]))
    base

/-- The minimum scan of the Dijkstra loop: over the unvisited nodes, track
the (node, distance) with `distance < minDistance`, starting from
`('', Infinity)`, reading distances through `getOrInfinity`. -/
def scanMin (distances : List (String × JNum)) (unvisited : List String) : String × JNum :=
  unvisited.foldl
    (fun acc node =>
      let distance := getOrInfinity distances node
      if distance.ltb acc.2 then (node, distance) else acc)
    ("", JNum.inf)

/-- Relax the neighbors of the extracted node `current` at distance
`minDistance`: `alt = minDistance + weight`, compared against
`distances.get(neighbor.toId) || Infinity`. -/
def relaxNeighbors (current : String) (minDistance : JNum) (neighbors : List Neighbor)
    (dp : List (String × JNum) × List (String × Option PrevEntry)) :
    List (String × JNum) × List (String × Option PrevEntry) :=
  neighbors.foldl
    (fun (dp : List (String × JNum) × List (String × Option PrevEntry)) n =>
      let alt := minDistance.add (JNum.fin n.weight)
      let currentDistance := getOrInfinity dp.1 n.toId
      if alt.ltb currentDistance then
        (setA dp.1 n.toId alt,
         setA dp.2 n.toId (some { roadId := n.roadId, fromId := current }))
      else dp)
    dp

/-- The `while (unvisited.size > 0)` loop.  Each non-breaking iteration
removes the extracted node from the unvisited set, so the initial size
bounds the iteration count exactly and serves as fuel. -/
def dijkstraLoop (endId : String) (adjacency : List (String × List Neighbor)) :
    ℕ → List String → List (String × JNum) → List (String × Option PrevEntry) →
    List (String × JNum) × List (String × Option PrevEntry)
  | 0, _, distances, previous => (distances, previous)
  | _ + 1, [], distances, previous => (distances, previous)
  | fuel + 1, unvisited@(_ :: _), distances, previous =>
      let cm := scanMin distances unvisited
      if cm.1 = endId then (distances, previous)
      else if cm.2 = JNum.inf then (distances, previous)
      else
        let unvisited1 := unvisited.erase cm.1
        let neighbors := (findA adjacency cm.1).getD []
        let dp := relaxNeighbors cm.1 cm.2 neighbors (distances, previous)
        dijkstraLoop endId adjacency fuel unvisited1 dp.1 dp.2

/-- Path reconstruction: walk `previous` back from `endId`, prepending one
segment per step.  The JS `while (previous.get(currentNode))` loop stops
on both `undefined` (key absent) and `null`; the fuel bounds the walk (the
loop in the source would not terminate on a cyclic `previous` table, which
never arises).  The non-null assertion `roads.find(...)!` is modelled by
stopping the walk if the road id is absent; on the actual `previous`
tables the code produces, every stored road id is present. -/
def reconstructRoute (roads : List Road) (previous : List (String × Option PrevEntry)) :
    ℕ → String → List RouteSegment → List RouteSegment
  | 0, _, acc => acc
  | fuel + 1, currentNode, acc =>
      match findA previous currentNode with
      | some (some prev) =>
          (match roads.find? (fun r => r.id = prev.roadId) with
           | some road =>
               reconstructRoute roads previous fuel prev.fromId
                 ({ roadId := road.id, fromIntersectionId := prev.fromId,
                    toIntersectionId := currentNode,
                    distanceRemaining := road.length } :: acc)
           | none => acc)
      | _ => acc

/-- `calculateRoute` (simulationOrchestrator.ts lines 151-232).
`Object.values` of the two records supplies the intersection and road
lists in insertion order. -/
def calculateRoute (startId endId : String) (st : SimState) : List RouteSegment :=
  let intersections := st.intersections.map Prod.snd
  let roads := st.roads.map Prod.snd
  let adjacency := buildAdjacency intersections roads
  let distances := intersections.map
    (fun i => (i.id, if i.id = startId then JNum.fin 0 else JNum.inf))
  let previous := intersections.map (fun i => (i.id, (none : Option PrevEntry)))
  let unvisited := intersections.map (fun i => i.id)
  let dp := dijkstraLoop endId adjacency unvisited.length unvisited distances previous
  reconstructRoute roads dp.2 (dp.2.length + 1) endId []

/-! ## Grid 2x2 network initialization (storage module, MemStorage.initializeNetwork) -/

/-- The four intersections of the `grid-2x2` layout: id, name, x, y. -/
def gridIntersectionData : List (String × String × ℚ × ℚ) :=
  [("int-nw", "Northwest Intersection", 0, 1000),
   ("int-ne", "Northeast Intersection", 1000, 1000),
   ("int-sw", "Southwest Intersection", 0, 0),
   ("int-se", "Southeast Intersection", 1000, 0)]

/-- The signal state every grid intersection starts with. -/
def gridSignalState : TrafficSignalState :=
  { northSouth := Color.red
    eastWest := Color.green
    currentPhase := Phase.EW
    phaseTimeRemaining := 30
    nextPhaseTime := 60 }

/-- The initial AI decision every grid intersection starts with. -/
def gridAIDecision : AIDecisionData :=
  { predictorNorthSouth := 50
    predictorEastWest := 50
    recommendedAction := Action.EW
    guardianChecks := { minGreenTime := true, safeTransition := true, systemHealth := true }
    timingPlan := { startTime := 0, duration := 30, endTime := 30 }
    pressureNorthSouth := 1
    pressureEastWest := 1 }

/-- One grid intersection.  The metrics fields are drawn with unseeded
`Math.random` (and `randomUUID`), so they are supplied by an oracle. -/
def mkGridIntersection (metricsOracle : String → TrafficMetrics)
    (d : String × String × ℚ × ℚ) : String × Intersection :=
  (d.1,
   { id := d.1
     name := d.2.1
     position := { x := d.2.2.1, y := d.2.2.2 }
     signalState := gridSignalState
     metrics := metricsOracle d.1
     incomingPlatoons := []
     aiDecision := gridAIDecision
     isActive := true })

/-- The eight directed road connections of the `grid-2x2` layout. -/
def gridRoadConnections : List (String × String × Dir) :=
  [("int-nw", "int-ne", Dir.east),
   ("int-ne", "int-nw", Dir.west),
   ("int-sw", "int-se", Dir.east),
   ("int-se", "int-sw", Dir.west),
   ("int-nw", "int-sw", Dir.south),
   ("int-sw", "int-nw", Dir.north),
   ("int-ne", "int-se", Dir.south),
   ("int-se", "int-ne", Dir.north)]

/-- One grid road; `currentFlow` is `Math.floor(Math.random() * 50)`,
supplied by an oracle keyed on the road id. -/
def mkGridRoad (flowOracle : String → ℚ) (conn : String × String × Dir) : String × Road :=
  let roadId := "road-" ++ conn.1 ++ "-" ++ conn.2.1
  (roadId,
   { id := roadId
     fromIntersectionId := conn.1
     toIntersectionId := conn.2.1
     lanes := 2
     length := 1000
     speedLimit := 50
     direction := conn.2.2
     capacity := 100
     currentFlow := flowOracle roadId
     travelTime := 72 })

/-- The intersections map built by `initializeNetwork('grid-2x2')`. -/
def gridIntersections (metricsOracle : String → TrafficMetrics) :
    List (String × Intersection) :=
  gridIntersectionData.map (mkGridIntersection metricsOracle)

/-- The roads map built by `initializeNetwork('grid-2x2')`. -/
def gridRoads (flowOracle : String → ℚ) : List (String × Road) :=
  gridRoadConnections.map (mkGridRoad flowOracle)

/-! ## Claim-side definitions (spec wording, for refinement comparison) -/

/-- The admissibility predicate exactly as claim C1 words it: the next
road's compass direction must belong to the currently green approach pair
(`NS` roads require `northSouth = green`, `EW` roads require
`eastWest = green`), neither approach may be yellow, and an
emergency-priority vehicle always passes.  Compared against
`canVehicleProceedThroughIntersection`. -/
def claimedAdmissible (vehicle : Vehicle) (intersection : Intersection)
    (roads : List (String × Road)) : Bool :=
  match vehicle.route with
  | [] => true
  | nextSegment :: _ =>
    if vehicle.priority = Priority.emergency then true
    else
      match findA roads nextSegment.roadId with
      | none => false
      | some nextRoad =>
        let s := intersection.signalState
        let pairGreen : Bool :=
          match nextRoad.direction with
          | Dir.north | Dir.south => decide (s.northSouth = Color.green)
          | Dir.east | Dir.west => decide (s.eastWest = Color.green)
        pairGreen && !(decide (s.northSouth = Color.yellow ∨ s.eastWest = Color.yellow))

/-- The green duration exactly as claim C6 words it
(`clamp(load / saturationFlowRate, minDuration, maxDuration) + bufferTime`),
instantiated with the constants the code defines: saturationFlowRate 2.5,
minDuration 8, maxDuration 35, bufferTime 2
(`clamp(x, lo, hi) = max(lo, min(hi, x))`).  Compared against the timing
plan emitted by `makeDecision`, which additionally rounds. -/
def claimedDuration (platoons : List IncomingPlatoon) (phase : Phase) : ℚ :=
  max 8 (min 35 (calculateVehicleLoad platoons phase / (2.5 : ℚ))) + 2

/-- The start time as claim C6 words it: `max(0, earliestETA − leadTime)`
over the relevant platoons (leadTime 3), and 0 when none are relevant. -/
def claimedStartTime (platoons : List IncomingPlatoon) (phase : Phase) : ℚ :=
  match platoons.filter (fun p => phaseDirections phase p.direction) with
  | [] => 0
  | p :: rest => max 0 ((rest.map (fun x => x.eta)).foldl min p.eta - 3)

/-! ## Well-formedness and the queue-membership invariant -/

/-- Vehicles records are keyed by the vehicle's own id and have no
duplicate keys (the storage and the spawner always store
`state.vehicles[vehicle.id] = vehicle` with a fresh uuid). -/
def WFVehicles (vehicles : List (String × Vehicle)) : Prop :=
  NodupKeys vehicles ∧ ∀ p ∈ vehicles, (Prod.snd p).id = Prod.fst p

/-- Roads records are keyed by the road's own id. -/
def WFRoads (roads : List (String × Road)) : Prop :=
  ∀ p ∈ roads, (Prod.snd p).id = Prod.fst p

/-- Intersections records are keyed by the intersection's own id. -/
def WFIntersections (intersections : List (String × Intersection)) : Prop :=
  ∀ p ∈ intersections, (Prod.snd p).id = Prod.fst p

/-- The queue-membership invariant of claim C5, strengthened to an
inductive form: every queued id denotes an existing vehicle standing at
that intersection whose remaining route is non-empty and whose next road's
direction is the queue's direction (this last conjunct is what makes
"at most one direction queue" stable under re-enqueueing). -/
structure QueueInv (st : SimState) : Prop where
  wfV : WFVehicles st.vehicles
  wfR : WFRoads st.roads
  wfI : WFIntersections st.intersections
  qnodup : ∀ iid q, findA st.queues iid = some q → ∀ d, (q.get d).Nodup
  member : ∀ iid q d vid, findA st.queues iid = some q → vid ∈ q.get d →
    ∃ v seg rest road, findA st.vehicles vid = some v ∧
      v.currentIntersectionId = some iid ∧ v.route = seg :: rest ∧
      findA st.roads seg.roadId = some road ∧ road.direction = d

/-- The simulation states reachable by the orchestrator: a start state
(queues freshly created empty by `start`), followed by any interleaving of
movement passes, phase-change queue releases, vehicle spawns (with the
fresh id `randomUUID` guarantees), and updates of the intersections map
(signal changes, AI decisions, metrics — all of which preserve the
id keying and touch neither vehicles, roads nor queues). -/
inductive Reachable : SimState → Prop
  | init (st : SimState) :
      WFVehicles st.vehicles → WFRoads st.roads → WFIntersections st.intersections →
      (∀ iid q, findA st.queues iid = some q → q = emptyQueues) →
      Reachable st
  | move (dt : ℚ) (st : SimState) : Reachable st →
      Reachable (updateVehicleMovement dt st)
  | release (st : SimState) (inter : Intersection) : Reachable st →
      Reachable { st with queues := processIntersectionQueues inter st.vehicles st.queues }
  | spawn (st : SimState) (v : Vehicle) : Reachable st →
      findA st.vehicles v.id = none → Reachable (spawnVehicle v st)
  | updateSignals (st : SimState) (intersections1 : List (String × Intersection)) :
      Reachable st → WFIntersections intersections1 →
      Reachable { st with intersections := intersections1 }

/-! ## Concrete instances used by counterexamples and witnesses -/

/-- Zeroed metrics record (metrics are irrelevant to every claim). -/
def metricsZero : TrafficMetrics := ⟨"m", 0, 0, 0, 0, 0, 0, 0, 0, 0⟩

/-- C1: a northbound road stored under id `r1`. -/
def roadC1 : Road := ⟨"r1", "int-a", "int-b", 2, 1000, 50, Dir.north, 100, 0, 72⟩

/-- C1: signal state whose phase selector (`currentPhase = EW`) disagrees
with the lamp colors (`northSouth = green`, `eastWest = red`). -/
def sigC1 : TrafficSignalState := ⟨Color.green, Color.red, Phase.EW, 30, 60⟩

/-- C1: the intersection carrying `sigC1`. -/
def interC1 : Intersection := ⟨"int-a", "A", ⟨0, 0⟩, sigC1, metricsZero, [], gridAIDecision, true⟩

/-- C1: a normal-priority vehicle whose next road is `r1` (northbound). -/
def vehC1 : Vehicle :=
  ⟨"v1", none, some "int-a", "int-b", [⟨"r1", "int-x", "int-a", 0⟩], 0, 50, ⟨0, 0⟩, 0,
   Priority.normal, VehicleType.car⟩

/-- C1 witness: a consistent all-green-NS signal. -/
def sigC1w : TrafficSignalState := ⟨Color.green, Color.red, Phase.NS, 30, 60⟩

/-- C1 witness: the intersection carrying `sigC1w`. -/
def interC1w : Intersection := ⟨"int-a", "A", ⟨0, 0⟩, sigC1w, metricsZero, [], gridAIDecision, true⟩

/-- C2: signal mid-yellow on the north-south approach, already in phase NS. -/
def sigC2 : TrafficSignalState := ⟨Color.yellow, Color.red, Phase.NS, 30, 60⟩

/-- C6: a single northbound platoon of 21 vehicles, eta 5 s. -/
def platoonC6 : IncomingPlatoon := ⟨Dir.north, 21, 5, 40⟩

/-- C6: an arbitrary signal state for the counterexample decision. -/
def sigC6 : TrafficSignalState := ⟨Color.red, Color.green, Phase.EW, 30, 60⟩

/-- C7 witness: a grid-style road. -/
def roadC7 : Road := ⟨"road-w", "int-a", "int-b", 2, 1000, 50, Dir.east, 100, 3, 72⟩

/-- C4 counterexample: empty-route vehicle standing at `int-a`, whose
destination is the different intersection `int-b`. -/
def vehC4 : Vehicle :=
  ⟨"v4", none, some "int-a", "int-b", [], 0, 50, ⟨0, 0⟩, 0, Priority.normal, VehicleType.car⟩

/-- C4 counterexample state. -/
def stC4 : SimState := ⟨[], [], [("v4", vehC4)], []⟩

/-- C4 witness: a one-vehicle state whose vehicle has a remaining route. -/
def vehC4w : Vehicle :=
  ⟨"w4", none, none, "int-b", [⟨"rw4", "int-a", "int-b", 500⟩], 0, 50, ⟨0, 0⟩, 0,
   Priority.normal, VehicleType.car⟩

/-- C4 witness state. -/
def stC4w : SimState := ⟨[], [], [("w4", vehC4w)], []⟩

/-- C8: an intersection with an all-red signal. -/
def interC8 : Intersection :=
  ⟨"int-a", "A", ⟨0, 0⟩, ⟨Color.red, Color.red, Phase.NS, 30, 60⟩, metricsZero, [],
   gridAIDecision, true⟩

/-- C8: a queued vehicle whose next road id `ghost-road` is absent. -/
def vehC8 : Vehicle :=
  ⟨"v8", none, some "int-a", "int-b", [⟨"ghost-road", "int-a", "int-b", 1000⟩], 0, 50,
   ⟨0, 0⟩, 0, Priority.normal, VehicleType.car⟩

/-- C8 state: the intersection exists, the road does not. -/
def stC8 : SimState := ⟨[("int-a", interC8)], [], [("v8", vehC8)], [("int-a", emptyQueues)]⟩

/-- C10: empty-route vehicle standing at `int-a`. -/
def vehC10 : Vehicle :=
  ⟨"vten", none, some "int-a", "int-a", [], 0, 50, ⟨0, 0⟩, 0, Priority.normal, VehicleType.car⟩

/-- C10 state. -/
def stC10 : SimState := ⟨[("int-a", interC8)], [], [("vten", vehC10)], [("int-a", emptyQueues)]⟩

/-- C10: an intersection showing yellow in both directions. -/
def interC10y : Intersection :=
  ⟨"int-y", "Y", ⟨0, 0⟩, ⟨Color.yellow, Color.yellow, Phase.NS, 30, 60⟩, metricsZero, [],
   gridAIDecision, true⟩

/-- C5 witness: a start state with one (empty) queue record. -/
def stC5 : SimState := ⟨[], [], [], [("int-a", emptyQueues)]⟩

/-! ## Association-list lemmas -/

theorem mem_keysA {α : Type} {l : List (String × α)} {k : String} :
    k ∈ keysA l ↔ ∃ v, (k, v) ∈ l := by
  unfold keysA
  rw [List.mem_map]
  constructor
  · rintro ⟨⟨a, b⟩, hm, he⟩
    have ha : a = k := he
    subst ha
    exact ⟨b, hm⟩
  · rintro ⟨v, hv⟩
    exact ⟨(k, v), hv, rfl⟩

theorem nodupKeys_cons {α : Type} {a : String} {b : α} {rest : List (String × α)} :
    NodupKeys ((a, b) :: rest) ↔ a ∉ keysA rest ∧ NodupKeys rest := by
  unfold NodupKeys keysA
  rw [List.map_cons, List.nodup_cons]

theorem findA_setA {α : Type} (l : List (String × α)) (k k' : String) (v : α) :
    findA (setA l k v) k' = if k = k' then some v else findA l k' := by
  induction l with
  | nil =>
      by_cases h : k = k' <;> simp [setA, findA, h]
  | cons p rest ih =>
      obtain ⟨a, b⟩ := p
      by_cases hak : a = k
      · subst hak
        by_cases hkk : a = k' <;> simp [setA, findA, hkk, ih]
      · by_cases hak' : a = k'
        · subst hak'
          have hk : ¬k = a := fun h => hak h.symm
          simp [setA, findA, hak, hk]
        · simp [setA, findA, hak, hak', ih]

theorem findA_mem {α : Type} {l : List (String × α)} {k : String} {v : α}
    (h : findA l k = some v) : (k, v) ∈ l := by
  induction l with
  | nil => exact absurd h (by simp [findA])
  | cons p rest ih =>
      obtain ⟨a, b⟩ := p
      by_cases hak : a = k
      · subst hak
        rw [findA, if_pos rfl] at h
        cases h
        exact List.mem_cons_self _ _
      · rw [findA, if_neg hak] at h
        exact List.mem_cons_of_mem _ (ih h)

theorem findA_eq_none {α : Type} {l : List (String × α)} {k : String}
    (h : k ∉ keysA l) : findA l k = none := by
  induction l with
  | nil => rfl
  | cons p rest ih =>
      obtain ⟨a, b⟩ := p
      have hak : a ≠ k := by
        intro hh
        exact h (mem_keysA.mpr ⟨b, by rw [hh]; exact List.mem_cons_self _ _⟩)
      have hk2 : k ∉ keysA rest := by
        intro hh
        obtain ⟨v, hv⟩ := mem_keysA.mp hh
        exact h (mem_keysA.mpr ⟨v, List.mem_cons_of_mem _ hv⟩)
      rw [findA, if_neg hak]
      exact ih hk2

theorem findA_of_mem_nodup {α : Type} {l : List (String × α)} {k : String} {v : α}
    (hnd : NodupKeys l) (hm : (k, v) ∈ l) : findA l k = some v := by
  induction l with
  | nil => exact absurd hm (List.not_mem_nil _)
  | cons p rest ih =>
      obtain ⟨a, b⟩ := p
      obtain ⟨ha, hrest⟩ := nodupKeys_cons.mp hnd
      rcases List.mem_cons.mp hm with h | h
      · cases h
        rw [findA, if_pos rfl]
      · have hak : a ≠ k := by
          intro hak
          subst hak
          exact ha (mem_keysA.mpr ⟨v, h⟩)
        rw [findA, if_neg hak]
        exact ih hrest h

theorem keysA_setA_of_found {α : Type} (l : List (String × α)) (k : String) (v : α)
    (h : findA l k ≠ none) : keysA (setA l k v) = keysA l := by
  induction l with
  | nil => exact absurd rfl h
  | cons p rest ih =>
      obtain ⟨a, b⟩ := p
      by_cases hak : a = k
      · subst hak
        rw [setA, if_pos rfl]
        rfl
      · rw [findA, if_neg hak] at h
        rw [setA, if_neg hak]
        unfold keysA at ih ⊢
        rw [List.map_cons, List.map_cons, ih h]

theorem setA_of_not_found {α : Type} (l : List (String × α)) (k : String) (v : α)
    (h : findA l k = none) : setA l k v = l ++ [(k, v)] := by
  induction l with
  | nil => rfl
  | cons p rest ih =>
      obtain ⟨a, b⟩ := p
      by_cases hak : a = k
      · rw [findA, if_pos hak] at h
        exact absurd h (by simp)
      · rw [findA, if_neg hak] at h
        rw [setA, if_neg hak, ih h]
        rfl

theorem nodupKeys_setA {α : Type} (l : List (String × α)) (k : String) (v : α)
    (hnd : NodupKeys l) : NodupKeys (setA l k v) := by
  by_cases h : findA l k = none
  · have hk : k ∉ keysA l := by
      intro hmem
      obtain ⟨b, hb⟩ := mem_keysA.mp hmem
      rw [findA_of_mem_nodup hnd hb] at h
      exact Option.noConfusion h
    rw [setA_of_not_found l k v h]
    unfold NodupKeys keysA at hnd ⊢
    rw [List.map_append]
    refine List.Nodup.append hnd (by simp) ?_
    intro a ha hamem
    simp at hamem
    subst hamem
    exact hk ha
  · unfold NodupKeys
    rw [keysA_setA_of_found l k v h]
    exact hnd

theorem keysA_eraseA_sublist {α : Type} (l : List (String × α)) (k : String) :
    (keysA (eraseA l k)).Sublist (keysA l) := by
  induction l with
  | nil => simp [eraseA, keysA]
  | cons p rest ih =>
      obtain ⟨a, b⟩ := p
      by_cases hak : a = k
      · rw [eraseA, if_pos hak]
        exact List.sublist_cons_self a (keysA rest)
      · rw [eraseA, if_neg hak]
        unfold keysA at ih ⊢
        rw [List.map_cons, List.map_cons]
        exact ih.cons₂ a

theorem nodupKeys_eraseA {α : Type} (l : List (String × α)) (k : String)
    (hnd : NodupKeys l) : NodupKeys (eraseA l k) :=
  List.Nodup.sublist (keysA_eraseA_sublist l k) hnd

theorem findA_eraseA_self {α : Type} (l : List (String × α)) (k : String)
    (hnd : NodupKeys l) : findA (eraseA l k) k = none := by
  induction l with
  | nil => rfl
  | cons p rest ih =>
      obtain ⟨a, b⟩ := p
      obtain ⟨ha, hrest⟩ := nodupKeys_cons.mp hnd
      by_cases hak : a = k
      · subst hak
        rw [eraseA, if_pos rfl]
        exact findA_eq_none ha
      · rw [eraseA, if_neg hak, findA, if_neg hak]
        exact ih hrest

theorem findA_eraseA_ne {α : Type} (l : List (String × α)) (k k' : String)
    (h : k' ≠ k) : findA (eraseA l k) k' = findA l k' := by
  induction l with
  | nil => rfl
  | cons p rest ih =>
      obtain ⟨a, b⟩ := p
      by_cases hak : a = k
      · subst hak
        have : a ≠ k' := fun hh => h hh.symm
        rw [eraseA, if_pos rfl, findA, if_neg this]
      · by_cases hak' : a = k' <;>
          rw [eraseA, if_neg hak, findA, findA] <;>
          simp [hak', ih]

theorem mem_eraseA {α : Type} {l : List (String × α)} {k : String} {p : String × α}
    (h : p ∈ eraseA l k) : p ∈ l := by
  induction l with
  | nil => exact absurd h (List.not_mem_nil _)
  | cons q rest ih =>
      obtain ⟨a, b⟩ := q
      by_cases hak : a = k
      · rw [eraseA, if_pos hak] at h
        exact List.mem_cons_of_mem _ h
      · rw [eraseA, if_neg hak] at h
        rcases List.mem_cons.mp h with h | h
        · rw [h]; exact List.mem_cons_self _ _
        · exact List.mem_cons_of_mem _ (ih h)

theorem mem_setA {α : Type} {l : List (String × α)} {k : String} {v : α} {p : String × α}
    (h : p ∈ setA l k v) : p ∈ l ∨ p = (k, v) := by
  induction l with
  | nil =>
      rw [setA] at h
      right
      simpa using h
  | cons q rest ih =>
      obtain ⟨a, b⟩ := q
      by_cases hak : a = k
      · rw [setA, if_pos hak] at h
        rcases List.mem_cons.mp h with h | h
        · right; exact h
        · left; exact List.mem_cons_of_mem _ h
      · rw [setA, if_neg hak] at h
        rcases List.mem_cons.mp h with h | h
        · left; rw [h]; exact List.mem_cons_self _ _
        · rcases ih h with h2 | h2
          · left; exact List.mem_cons_of_mem _ h2
          · right; exact h2

/-! ## IntersectionQueues accessor lemmas -/

theorem IntersectionQueues.get_set_self (q : IntersectionQueues) (d : Dir) (l : List String) :
    (q.set d l).get d = l := by
  cases d <;> rfl

theorem IntersectionQueues.get_set_ne (q : IntersectionQueues) (d d' : Dir) (l : List String)
    (h : d' ≠ d) : (q.set d l).get d' = q.get d' := by
  cases d <;> cases d' <;> first
    | rfl
    | exact absurd rfl h

theorem emptyQueues_get (d : Dir) : emptyQueues.get d = [] := by
  cases d <;> rfl

/-! ## Unfolding lemmas for the decision and occupancy functions -/

theorem updateRoadOccupancy_currentFlow (road : Road) (vehicles : List (String × Vehicle)) :
    (updateRoadOccupancy road vehicles).currentFlow =
      min ((vehicles.filter (fun p => decide (p.2.currentRoadId = some road.id))).length : ℚ)
        road.capacity := rfl

theorem updateRoadOccupancy_travelTime (road : Road) (vehicles : List (String × Vehicle)) :
    (updateRoadOccupancy road vehicles).travelTime =
      baseTravelTime road *
        (1 + (updateRoadOccupancy road vehicles).currentFlow / road.capacity * 2) := rfl

theorem makeDecision_recommendedAction (platoons : List IncomingPlatoon)
    (currentSignal : TrafficSignalState) (health : Bool) (recommended : Phase)
    (pNS pEW now last : ℚ) :
    (makeDecision platoons currentSignal health recommended pNS pEW now last).1.recommendedAction =
      (if (validateDecision recommended currentSignal health now last).1.approved then
        match recommended with
        | Phase.NS => Action.NS
        | Phase.EW => Action.EW
      else Action.HOLD) := rfl

theorem makeDecision_snd (platoons : List IncomingPlatoon)
    (currentSignal : TrafficSignalState) (health : Bool) (recommended : Phase)
    (pNS pEW now last : ℚ) :
    (makeDecision platoons currentSignal health recommended pNS pEW now last).2 =
      (validateDecision recommended currentSignal health now last).2 := rfl

theorem validateDecision_snd (recommendation : Phase) (currentSignal : TrafficSignalState)
    (health : Bool) (now last : ℚ) :
    (validateDecision recommendation currentSignal health now last).2 =
      (if (validateDecision recommendation currentSignal health now last).1.approved = true ∧
          currentSignal.currentPhase ≠ recommendation then now else last) := rfl

theorem validateDecision_approved (recommendation : Phase) (currentSignal : TrafficSignalState)
    (health : Bool) (now last : ℚ) :
    (validateDecision recommendation currentSignal health now last).1.approved = true ↔
      (MIN_GREEN_TIME ≤ now - last ∨ MAX_GREEN_TIME ≤ now - last) ∧
      (currentSignal.currentPhase = recommendation ∨
        (currentSignal.northSouth ≠ Color.yellow ∧ currentSignal.eastWest ≠ Color.yellow)) ∧
      health = true := by
  unfold validateDecision canSafelyTransition
  by_cases h1 : MAX_GREEN_TIME ≤ now - last <;>
    by_cases h2 : currentSignal.currentPhase = recommendation <;>
      by_cases h3 : currentSignal.northSouth = Color.yellow ∨ currentSignal.eastWest = Color.yellow <;>
        simp [h1, h2, h3, Bool.and_eq_true, decide_eq_true_eq] <;> tauto

/-! ## Claim C7 -/

/-- C7: after every road-occupancy update, for a road with positive
capacity, positive speed limit (the road schema constrains the speed limit
to [10,120]) and non-negative length (the schema requires positive
length), the travel time equals the free-flow time times the congestion
multiplier `1 + 2·(currentFlow/capacity)`, the flow never exceeds the
capacity, and the travel time is never negative. -/
theorem road_travelTime_invariant (road : Road) (vehicles : List (String × Vehicle))
    (hcap : 0 < road.capacity) (hspeed : 0 < road.speedLimit) (hlen : 0 ≤ road.length) :
    (updateRoadOccupancy road vehicles).travelTime =
        baseTravelTime road *
          (1 + 2 * ((updateRoadOccupancy road vehicles).currentFlow / road.capacity)) ∧
    (updateRoadOccupancy road vehicles).currentFlow ≤ road.capacity ∧
    0 ≤ (updateRoadOccupancy road vehicles).travelTime := by
  have hbase : 0 ≤ baseTravelTime road := by
    unfold baseTravelTime
    apply div_nonneg
    · apply div_nonneg hlen
      norm_num
    · apply div_nonneg hspeed.le
      norm_num
  have hflow0 : (0 : ℚ) ≤ (updateRoadOccupancy road vehicles).currentFlow := by
    rw [updateRoadOccupancy_currentFlow]
    exact le_min (by positivity) hcap.le
  refine ⟨?_, ?_, ?_⟩
  · rw [updateRoadOccupancy_travelTime]
    ring
  · rw [updateRoadOccupancy_currentFlow]
    exact min_le_right _ _
  · rw [updateRoadOccupancy_travelTime]
    have hf : 0 ≤ (updateRoadOccupancy road vehicles).currentFlow / road.capacity :=
      div_nonneg hflow0 hcap.le
    nlinarith

/-- C7 witness: the invariant instantiated at a concrete grid-style road
with three vehicles on it. -/
theorem road_travelTime_invariant_witness :
    (0 < roadC7.capacity ∧ 0 < roadC7.speedLimit ∧ 0 ≤ roadC7.length) ∧
    0 ≤ (updateRoadOccupancy roadC7 []).travelTime :=
  ⟨⟨by norm_num [roadC7], by norm_num [roadC7], by norm_num [roadC7]⟩,
    (road_travelTime_invariant roadC7 [] (by norm_num [roadC7]) (by norm_num [roadC7])
      (by norm_num [roadC7])).2.2⟩

/-! ## Claim C9 -/

/-- C9: the `grid-2x2` layout creates exactly 4 intersections and 8
directed roads; each intersection has exactly 2 incoming and 2 outgoing
roads; and for every road from A to B there is a road from B to A
(regardless of the randomly drawn metrics and flows). -/
theorem grid2x2_topology (metricsOracle : String → TrafficMetrics) (flowOracle : String → ℚ) :
    (gridIntersections metricsOracle).length = 4 ∧
    (gridRoads flowOracle).length = 8 ∧
    (∀ iid ∈ keysA (gridIntersections metricsOracle),
       (gridRoads flowOracle).countP (fun p => decide (p.2.toIntersectionId = iid)) = 2 ∧
       (gridRoads flowOracle).countP (fun p => decide (p.2.fromIntersectionId = iid)) = 2) ∧
    (∀ p ∈ gridRoads flowOracle, ∃ p2 ∈ gridRoads flowOracle,
       p2.2.fromIntersectionId = p.2.toIntersectionId ∧
       p2.2.toIntersectionId = p.2.fromIntersectionId) := by
  refine ⟨rfl, rfl, ?_, ?_⟩
  · intro iid hiid
    have hkeys : keysA (gridIntersections metricsOracle) =
        ["int-nw", "int-ne", "int-sw", "int-se"] := rfl
    rw [hkeys] at hiid
    have hmap : gridRoads flowOracle = gridRoadConnections.map (mkGridRoad flowOracle) := rfl
    rw [hmap, List.countP_map, List.countP_map]
    fin_cases hiid <;>
      simp [gridRoadConnections, mkGridRoad, List.countP_cons, Function.comp]
  · intro p hp
    have hmap : gridRoads flowOracle = gridRoadConnections.map (mkGridRoad flowOracle) := rfl
    rw [hmap] at hp ⊢
    simp only [List.mem_map] at hp
    obtain ⟨c, hc, hpc⟩ := hp
    subst hpc
    fin_cases hc <;>
      [exact ⟨mkGridRoad flowOracle ("int-ne", "int-nw", Dir.west),
          by simp [gridRoadConnections], by simp [mkGridRoad], by simp [mkGridRoad]⟩;
       exact ⟨mkGridRoad flowOracle ("int-nw", "int-ne", Dir.east),
          by simp [gridRoadConnections], by simp [mkGridRoad], by simp [mkGridRoad]⟩;
       exact ⟨mkGridRoad flowOracle ("int-se", "int-sw", Dir.west),
          by simp [gridRoadConnections], by simp [mkGridRoad], by simp [mkGridRoad]⟩;
       exact ⟨mkGridRoad flowOracle ("int-sw", "int-se", Dir.east),
          by simp [gridRoadConnections], by simp [mkGridRoad], by simp [mkGridRoad]⟩;
       exact ⟨mkGridRoad flowOracle ("int-sw", "int-nw", Dir.north),
          by simp [gridRoadConnections], by simp [mkGridRoad], by simp [mkGridRoad]⟩;
       exact ⟨mkGridRoad flowOracle ("int-nw", "int-sw", Dir.south),
          by simp [gridRoadConnections], by simp [mkGridRoad], by simp [mkGridRoad]⟩;
       exact ⟨mkGridRoad flowOracle ("int-se", "int-ne", Dir.north),
          by simp [gridRoadConnections], by simp [mkGridRoad], by simp [mkGridRoad]⟩;
       exact ⟨mkGridRoad flowOracle ("int-ne", "int-se", Dir.south),
          by simp [gridRoadConnections], by simp [mkGridRoad], by simp [mkGridRoad]⟩]

/-! ## Claim C6 -/

/-- C6 counterexample: with a single northbound platoon of 21 vehicles the
code emits `duration = Math.round(max(8, min(35, 21/2.5)) + 2) = 10`,
while the claim's formula
`clamp(load/saturationFlowRate, minDuration, maxDuration) + bufferTime`
yields `10.4` — the claim omits the rounding the code applies before
emitting the plan. -/
theorem timingPlan_duration_rounds :
    (makeDecision [platoonC6] sigC6 true Phase.NS 0 0 0 0).1.timingPlan.duration = 10 ∧
    claimedDuration [platoonC6] Phase.NS = 52 / 5 ∧ ¬((10 : ℚ) = 52 / 5) := by
  have hload : calculateVehicleLoad [platoonC6] Phase.NS = 21 := by
    norm_num [calculateVehicleLoad, phaseDirections, platoonC6, List.filter]
  have hmin : min (35 : ℚ) (21 / (2.5 : ℚ)) = 21 / (2.5 : ℚ) := min_eq_right (by norm_num)
  have hmax : max (8 : ℚ) (21 / (2.5 : ℚ)) = 21 / (2.5 : ℚ) := max_eq_right (by norm_num)
  refine ⟨?_, ?_, by norm_num⟩
  · show jsRound (max 8 (min 35 (calculateVehicleLoad [platoonC6] Phase.NS / (2.5 : ℚ))) + 2) = 10
    rw [hload, hmin, hmax]
    unfold jsRound
    rw [show (21 / (2.5 : ℚ) + 2 + 1 / 2 : ℚ) = 109 / 10 by norm_num]
    rw [show ⌊(109 / 10 : ℚ)⌋ = (10 : ℤ) by rw [Int.floor_eq_iff] ; constructor <;> norm_num]
    norm_num
  · unfold claimedDuration
    rw [hload, hmin, hmax]
    norm_num

/-- C6 amended: the emitted green duration is
`round(clamp(load/saturationFlowRate, minDuration, maxDuration) + bufferTime)`
with saturationFlowRate 2.5, minDuration 8, maxDuration 35 and bufferTime 2
— the claim's clamp is present but the claim omits the final rounding —
and therefore the duration never exceeds `maxDuration + bufferTime = 37`;
the start time is `max(0, earliestETA − leadTime)` over the platoons of the
recommended phase's directions (0 when there are none), with
`endTime = startTime + duration`. -/
theorem timingPlan_formula (platoons : List IncomingPlatoon)
    (currentSignal : TrafficSignalState) (health : Bool) (recommended : Phase)
    (pNS pEW now last : ℚ) :
    (makeDecision platoons currentSignal health recommended pNS pEW now last).1.timingPlan.duration =
        jsRound (max 8 (min 35 (calculateVehicleLoad platoons recommended / (2.5 : ℚ))) + 2) ∧
    (makeDecision platoons currentSignal health recommended pNS pEW now last).1.timingPlan.duration ≤
        37 ∧
    (makeDecision platoons currentSignal health recommended pNS pEW now last).1.timingPlan.startTime =
        claimedStartTime platoons recommended ∧
    (makeDecision platoons currentSignal health recommended pNS pEW now last).1.timingPlan.endTime =
        (makeDecision platoons currentSignal health recommended pNS pEW now last).1.timingPlan.startTime +
        (makeDecision platoons currentSignal health recommended pNS pEW now last).1.timingPlan.duration := by
  refine ⟨rfl, ?_, ?_, rfl⟩
  · show jsRound (max 8 (min 35 (calculateVehicleLoad platoons recommended / (2.5 : ℚ))) + 2) ≤ 37
    have hb : max (8 : ℚ) (min 35 (calculateVehicleLoad platoons recommended / (2.5 : ℚ))) ≤ 35 :=
      max_le (by norm_num) (min_le_left _ _)
    unfold jsRound
    have hfl : ⌊(max (8 : ℚ) (min 35 (calculateVehicleLoad platoons recommended / (2.5 : ℚ))) + 2
        + 1 / 2)⌋ ≤ ⌊(37 + 1 / 2 : ℚ)⌋ := Int.floor_le_floor (by linarith)
    have h37 : ⌊(37 + 1 / 2 : ℚ)⌋ = (37 : ℤ) := by
      rw [Int.floor_eq_iff] ; constructor <;> norm_num
    rw [h37] at hfl
    exact_mod_cast hfl
  · show max 0 (calculateOptimalStartTime platoons recommended) = claimedStartTime platoons recommended
    unfold calculateOptimalStartTime claimedStartTime
    cases platoons.filter (fun p => phaseDirections recommended p.direction) with
    | nil => simp
    | cons p rest =>
        simp only
        rw [← max_assoc, max_self]

/-! ## Claim C2 -/

/-- C2 counterexample: with the north-south lamp yellow but the
recommendation equal to the current phase (`NS`), the guardian's
safe-transition check passes and the decision keeps the predictor's
recommendation — the claim states the safe-transition check fails while
either direction is yellow, which would force `HOLD` here. -/
theorem guardian_yellow_same_phase_approved :
    (makeDecision [] sigC2 true Phase.NS 0 0 10000 0).1.recommendedAction = Action.NS ∧
    (makeDecision [] sigC2 true Phase.NS 0 0 10000 0).1.guardianChecks.safeTransition = true ∧
    sigC2.northSouth = Color.yellow := by
  have happ : (validateDecision Phase.NS sigC2 true 10000 0).1.approved = true := by
    rw [validateDecision_approved]
    exact ⟨Or.inl (by norm_num [MIN_GREEN_TIME]), Or.inl rfl, rfl⟩
  refine ⟨?_, ?_, rfl⟩
  · rw [makeDecision_recommendedAction, happ]
    rfl
  · show canSafelyTransition sigC2 Phase.NS = true
    rfl

/-- C2 amended: the decision keeps the predictor's recommendation exactly
when the minimum green time has elapsed or the maximum green time has
elapsed (the anti-starvation override, which forces the minimum-green
check to pass), the transition is safe — which it always is when the
recommended phase equals the current phase, and otherwise fails exactly
while either direction is yellow — and the system-health flag is set;
otherwise the action is `HOLD`.  The last-phase-change timestamp is
updated on approval only when the recommendation differs from the current
phase. -/
theorem guardian_gate (platoons : List IncomingPlatoon) (currentSignal : TrafficSignalState)
    (health : Bool) (recommended : Phase) (pNS pEW now last : ℚ) :
    ((makeDecision platoons currentSignal health recommended pNS pEW now last).1.recommendedAction =
        Action.HOLD ∨
     (makeDecision platoons currentSignal health recommended pNS pEW now last).1.recommendedAction =
        (match recommended with | Phase.NS => Action.NS | Phase.EW => Action.EW)) ∧
    ((makeDecision platoons currentSignal health recommended pNS pEW now last).1.recommendedAction ≠
        Action.HOLD ↔
      (MIN_GREEN_TIME ≤ now - last ∨ MAX_GREEN_TIME ≤ now - last) ∧
      (currentSignal.currentPhase = recommended ∨
        (currentSignal.northSouth ≠ Color.yellow ∧ currentSignal.eastWest ≠ Color.yellow)) ∧
      health = true) ∧
    ((makeDecision platoons currentSignal health recommended pNS pEW now last).2 =
      if (makeDecision platoons currentSignal health recommended pNS pEW now last).1.recommendedAction ≠
          Action.HOLD ∧ currentSignal.currentPhase ≠ recommended then now else last) := by
  rw [makeDecision_recommendedAction, makeDecision_snd, validateDecision_snd]
  cases recommended with
  | NS =>
      cases hA : (validateDecision Phase.NS currentSignal health now last).1.approved with
      | false =>
          have happ := validateDecision_approved Phase.NS currentSignal health now last
          rw [hA] at happ
          simp only [Bool.false_eq_true, false_iff] at happ
          exact ⟨by simp, iff_of_false (by simp) happ, by simp⟩
      | true =>
          have happ := validateDecision_approved Phase.NS currentSignal health now last
          rw [hA] at happ
          simp only [true_iff] at happ
          exact ⟨by simp, iff_of_true (by simp) happ, by simp⟩
  | EW =>
      cases hA : (validateDecision Phase.EW currentSignal health now last).1.approved with
      | false =>
          have happ := validateDecision_approved Phase.EW currentSignal health now last
          rw [hA] at happ
          simp only [Bool.false_eq_true, false_iff] at happ
          exact ⟨by simp, iff_of_false (by simp) happ, by simp⟩
      | true =>
          have happ := validateDecision_approved Phase.EW currentSignal health now last
          rw [hA] at happ
          simp only [true_iff] at happ
          exact ⟨by simp, iff_of_true (by simp) happ, by simp⟩

/-! ## Claim C1 -/

/-- C1 counterexample: an intersection whose phase selector is `EW` while
the north-south lamp is green and no lamp is yellow.  A normal-priority
vehicle whose next road runs north is rejected by the code (the phase
selector does not pick the north-south pair), although the claim's rule —
NS roads require only `northSouth = green` and no yellow — admits it. -/
theorem admissibility_phase_mismatch :
    canVehicleProceedThroughIntersection vehC1 interC1 [("r1", roadC1)] = false ∧
    claimedAdmissible vehC1 interC1 [("r1", roadC1)] = true ∧
    ¬(vehC1.route = []) ∧ ¬(vehC1.priority = Priority.emergency) := by
  refine ⟨by decide, by decide, by decide, by decide⟩

/-- C1 amended: for any vehicle, intersection and roads map, the
admissibility check passes exactly when the route is already empty, or the
vehicle has emergency priority, or the next road exists, no lamp is
yellow, and the signal's `currentPhase` selects the pair containing the
next road's direction with that pair's lamp green. -/
theorem canProceed_characterization (v : Vehicle) (inter : Intersection)
    (roads : List (String × Road)) :
    canVehicleProceedThroughIntersection v inter roads = true ↔
      v.route = [] ∨ v.priority = Priority.emergency ∨
      (∃ seg rest road, v.route = seg :: rest ∧ findA roads seg.roadId = some road ∧
        inter.signalState.northSouth ≠ Color.yellow ∧
        inter.signalState.eastWest ≠ Color.yellow ∧
        ((inter.signalState.currentPhase = Phase.NS ∧
           (road.direction = Dir.north ∨ road.direction = Dir.south) ∧
           inter.signalState.northSouth = Color.green) ∨
         (inter.signalState.currentPhase = Phase.EW ∧
           (road.direction = Dir.east ∨ road.direction = Dir.west) ∧
           inter.signalState.eastWest = Color.green))) := by
  cases hr : v.route with
  | nil => simp [canVehicleProceedThroughIntersection, hr]
  | cons seg rest =>
      by_cases hp : v.priority = Priority.emergency
      · simp [canVehicleProceedThroughIntersection, hr, hp]
      · cases hf : findA roads seg.roadId with
        | none =>
            simp [canVehicleProceedThroughIntersection, hr, hp, hf]
        | some road =>
            cases hph : inter.signalState.currentPhase <;>
              by_cases hy1 : inter.signalState.northSouth = Color.yellow <;>
                by_cases hy2 : inter.signalState.eastWest = Color.yellow <;>
                  simp [canVehicleProceedThroughIntersection, hr, hp, hf, hph, hy1, hy2,
                    Bool.and_eq_true, decide_eq_true_eq] <;>
                    tauto

/-- C1 witness for the amended characterization: a consistent NS-green
signal admits the northbound vehicle, as the characterization's third
disjunct requires. -/
theorem canProceed_characterization_witness :
    canVehicleProceedThroughIntersection vehC1 interC1w [("r1", roadC1)] = true ↔
      vehC1.route = [] ∨ vehC1.priority = Priority.emergency ∨
      (∃ seg rest road, vehC1.route = seg :: rest ∧
        findA [("r1", roadC1)] seg.roadId = some road ∧
        interC1w.signalState.northSouth ≠ Color.yellow ∧
        interC1w.signalState.eastWest ≠ Color.yellow ∧
        ((interC1w.signalState.currentPhase = Phase.NS ∧
           (road.direction = Dir.north ∨ road.direction = Dir.south) ∧
           interC1w.signalState.northSouth = Color.green) ∨
         (interC1w.signalState.currentPhase = Phase.EW ∧
           (road.direction = Dir.east ∨ road.direction = Dir.west) ∧
           interC1w.signalState.eastWest = Color.green))) :=
  canProceed_characterization vehC1 interC1w [("r1", roadC1)]

/-! ## Structural lemmas about processVehicle -/

theorem processVehicle_vehicles_ne (dt : ℚ) (v : Vehicle) (st : SimState) (k : String)
    (hk : ¬(v.id = k)) :
    findA (processVehicle dt v st).vehicles k = findA st.vehicles k := by
  have he : findA (eraseA st.vehicles v.id) k = findA st.vehicles k :=
    findA_eraseA_ne _ _ _ fun h => hk h.symm
  have hs : ∀ x, findA (setA st.vehicles v.id x) k = findA st.vehicles k := by
    intro x
    rw [findA_setA]
    exact if_neg hk
  unfold processVehicle
  repeat' split
  all_goals try dsimp only
  all_goals repeat' split
  all_goals simp [he, hs]

theorem processVehicle_intersections (dt : ℚ) (v : Vehicle) (st : SimState) :
    (processVehicle dt v st).intersections = st.intersections := by
  unfold processVehicle
  repeat' split
  all_goals try dsimp only
  all_goals repeat' split
  all_goals rfl

theorem processVehicle_nil (dt : ℚ) (v : Vehicle) (st : SimState) (h : v.route = []) :
    processVehicle dt v st = { st with vehicles := eraseA st.vehicles v.id } := by
  simp only [processVehicle, h]

theorem processVehicle_cons_isSome (dt : ℚ) (v : Vehicle) (st : SimState)
    (seg : RouteSegment) (rest : List RouteSegment) (h : v.route = seg :: rest)
    (hb : findA st.vehicles v.id = some v) :
    ∃ w, findA (processVehicle dt v st).vehicles v.id = some w := by
  unfold processVehicle
  repeat' split
  all_goals try dsimp only
  all_goals repeat' split
  all_goals first
    | exact ⟨v, hb⟩
    | exact ⟨_, by rw [findA_setA, if_pos rfl]⟩
    | simp_all

theorem processVehicle_wfVehicles (dt : ℚ) (v : Vehicle) (st : SimState)
    (hwf : WFVehicles st.vehicles) (hb : findA st.vehicles v.id = some v) :
    WFVehicles (processVehicle dt v st).vehicles := by
  obtain ⟨hnd, hid⟩ := hwf
  have hsetid : ∀ x : Vehicle, x.id = v.id → ∀ p ∈ setA st.vehicles v.id x,
      (Prod.snd p).id = Prod.fst p := by
    intro x hx p hp
    rcases mem_setA hp with h | h
    · exact hid p h
    · rw [h]
      exact hx
  unfold processVehicle
  repeat' split
  all_goals try dsimp only
  all_goals repeat' split
  all_goals first
    | exact ⟨hnd, hid⟩
    | exact ⟨nodupKeys_eraseA _ _ hnd, fun p hp => hid p (mem_eraseA hp)⟩
    | exact ⟨nodupKeys_setA _ _ _ hnd, hsetid _ rfl⟩

theorem wfRoads_setA (roads : List (String × Road)) (kid : String) (x : Road)
    (hwr : WFRoads roads) (hx : x.id = kid) : WFRoads (setA roads kid x) := by
  intro p hp
  rcases mem_setA hp with h | h
  · exact hwr p h
  · rw [h]
    exact hx

theorem updateRoadOccupancy_id (road : Road) (vs : List (String × Vehicle)) :
    (updateRoadOccupancy road vs).id = road.id := rfl

theorem updateRoadOccupancy_direction (road : Road) (vs : List (String × Vehicle)) :
    (updateRoadOccupancy road vs).direction = road.direction := rfl

/-- Rewriting one road's occupancy keeps every road lookup defined with an
unchanged direction. -/
theorem roads_occupancy_preserves (roads : List (String × Road)) (rid : String)
    (road : Road) (X : List (String × Vehicle)) (hwr : WFRoads roads)
    (hfr : findA roads rid = some road) :
    WFRoads (setA roads road.id (updateRoadOccupancy road X)) ∧
    ∀ k rd, findA roads k = some rd →
      ∃ rd2, findA (setA roads road.id (updateRoadOccupancy road X)) k = some rd2 ∧
        rd2.direction = rd.direction := by
  have hkey : road.id = rid := hwr _ (findA_mem hfr)
  refine ⟨wfRoads_setA _ _ _ hwr rfl, ?_⟩
  intro k rd hk
  rw [findA_setA]
  by_cases h : road.id = k
  · have hrdroad : rd = road := by
      rw [← h, hkey] at hk
      rw [hfr] at hk
      cases hk
      rfl
    refine ⟨updateRoadOccupancy road X, by rw [if_pos h], ?_⟩
    rw [updateRoadOccupancy_direction, hrdroad]
  · exact ⟨rd, by rw [if_neg h]; exact hk, rfl⟩

/-- The two possible outcomes of `enqueueVehicleAtIntersection`. -/
theorem enqueue_queues_cases (v1 : Vehicle) (key : String) (roads : List (String × Road))
    (queues : List (String × IntersectionQueues)) :
    enqueueVehicleAtIntersection v1 key roads queues = queues ∨
    ∃ seg rest road q0,
      v1.route = seg :: rest ∧ findA roads seg.roadId = some road ∧
      findA queues key = some q0 ∧ ¬(v1.id ∈ q0.get road.direction) ∧
      enqueueVehicleAtIntersection v1 key roads queues =
        setA queues key (q0.set road.direction (q0.get road.direction ++ [v1.id])) := by
  rcases hr : v1.route with _ | ⟨seg, rest⟩
  · left
    simp [enqueueVehicleAtIntersection, hr]
  · rcases hf : findA roads seg.roadId with _ | road
    · left
      simp [enqueueVehicleAtIntersection, hr, hf]
    · rcases hq : findA queues key with _ | q0
      · left
        simp [enqueueVehicleAtIntersection, hr, hf, hq]
      · by_cases hm : v1.id ∈ q0.get road.direction
        · left
          simp [enqueueVehicleAtIntersection, hr, hf, hq, hm]
        · right
          refine ⟨seg, rest, road, q0, rfl, hf, rfl, hm, ?_⟩
          simp [enqueueVehicleAtIntersection, hr, hf, hq, hm]

/-- The two possible outcomes of `dequeueVehicleFromIntersection`. -/
theorem dequeue_queues_cases (vid key : String) (queues : List (String × IntersectionQueues)) :
    (findA queues key = none ∧ dequeueVehicleFromIntersection vid key queues = queues) ∨
    ∃ q0, findA queues key = some q0 ∧
      dequeueVehicleFromIntersection vid key queues =
        setA queues key ⟨q0.north.erase vid, q0.east.erase vid,
          q0.south.erase vid, q0.west.erase vid⟩ := by
  rcases hq : findA queues key with _ | q0
  · left
    exact ⟨rfl, by simp [dequeueVehicleFromIntersection, hq]⟩
  · right
    exact ⟨q0, rfl, by simp [dequeueVehicleFromIntersection, hq]⟩

theorem mergedErase_get (q0 : IntersectionQueues) (vid : String) (d : Dir) :
    (IntersectionQueues.mk (q0.north.erase vid) (q0.east.erase vid) (q0.south.erase vid)
      (q0.west.erase vid)).get d = (q0.get d).erase vid := by
  cases d <;> rfl

/-! ## Preservation of the queue invariant by the individual operations -/

theorem queueInv_delete (st : SimState) (v : Vehicle) (hinv : QueueInv st)
    (hb : findA st.vehicles v.id = some v) (hr : v.route = []) :
    QueueInv { st with vehicles := eraseA st.vehicles v.id } := by
  obtain ⟨⟨hnd, hids⟩, hwfR, hwfI, hqnd, hmem⟩ := hinv
  refine ⟨⟨nodupKeys_eraseA _ _ hnd, fun p hp => hids p (mem_eraseA hp)⟩, hwfR, hwfI, hqnd, ?_⟩
  intro iid q d vid hfq hvq
  obtain ⟨w, seg, rest, road, hw, hciid, hroute, hrd, hdir⟩ := hmem iid q d vid hfq hvq
  have hvne : vid ≠ v.id := by
    intro he
    subst he
    rw [hb] at hw
    injection hw with hw2
    subst hw2
    rw [hr] at hroute
    exact List.noConfusion hroute
  exact ⟨w, seg, rest, road, by rw [findA_eraseA_ne _ _ _ hvne]; exact hw,
    hciid, hroute, hrd, hdir⟩

theorem queueInv_unqueued_update (st : SimState) (v v1 : Vehicle)
    (roads1 : List (String × Road)) (hinv : QueueInv st)
    (hb : findA st.vehicles v.id = some v) (hci : v.currentIntersectionId = none)
    (hid1 : v1.id = v.id) (hci1 : v1.currentIntersectionId = none)
    (hwfR1 : WFRoads roads1)
    (hpres : ∀ k rd, findA st.roads k = some rd →
      ∃ rd2, findA roads1 k = some rd2 ∧ rd2.direction = rd.direction) :
    QueueInv { st with vehicles := setA st.vehicles v.id v1, roads := roads1 } := by
  obtain ⟨⟨hnd, hids⟩, hwfR, hwfI, hqnd, hmem⟩ := hinv
  refine ⟨⟨nodupKeys_setA _ _ _ hnd, ?_⟩, hwfR1, hwfI, hqnd, ?_⟩
  · intro p hp
    rcases mem_setA hp with h | h
    · exact hids p h
    · rw [h]
      exact hid1
  · intro iid q d vid hfq hvq
    obtain ⟨w, seg, rest, road, hw, hciid, hroute, hrd, hdir⟩ := hmem iid q d vid hfq hvq
    have hvne : ¬(v.id = vid) := by
      intro he
      rw [← he] at hw
      rw [hb] at hw
      injection hw with hw2
      subst hw2
      rw [hci] at hciid
      exact Option.noConfusion hciid
    obtain ⟨rd2, hrd2, hdir2⟩ := hpres _ _ hrd
    refine ⟨w, seg, rest, rd2, ?_, hciid, hroute, hrd2, by rw [hdir2, hdir]⟩
    rw [findA_setA, if_neg hvne]
    exact hw

theorem queueInv_enqueue_update (st : SimState) (v v1 v2 : Vehicle) (iid : String)
    (inter : Intersection) (roads1 : List (String × Road))
    (hinv : QueueInv st) (hb : findA st.vehicles v.id = some v)
    (hfi : findA st.intersections iid = some inter)
    (hid1 : v1.id = v.id) (hid2 : v2.id = v.id)
    (hroute12 : v1.route = v2.route)
    (hci2 : v2.currentIntersectionId = some iid)
    (hprev : ∀ iid2 q d, findA st.queues iid2 = some q → v.id ∈ q.get d →
       iid2 = iid ∧ ∃ seg0 rest0 road0, v2.route = seg0 :: rest0 ∧
         findA st.roads seg0.roadId = some road0 ∧ road0.direction = d)
    (hwfR1 : WFRoads roads1)
    (hpres : ∀ k rd, findA st.roads k = some rd →
      ∃ rd2, findA roads1 k = some rd2 ∧ rd2.direction = rd.direction) :
    QueueInv { st with
      vehicles := setA st.vehicles v.id v2
      queues := enqueueVehicleAtIntersection v1 inter.id st.roads st.queues
      roads := roads1 } := by
  obtain ⟨⟨hnd, hids⟩, hwfR, hwfI, hqnd, hmem⟩ := hinv
  have hkey : inter.id = iid := hwfI _ (findA_mem hfi)
  have hwfV1 : WFVehicles (setA st.vehicles v.id v2) := by
    refine ⟨nodupKeys_setA _ _ _ hnd, ?_⟩
    intro p hp
    rcases mem_setA hp with h | h
    · exact hids p h
    · rw [h]
      exact hid2
  -- the new vehicles lookup
  have hlook : ∀ vid, vid ≠ v.id →
      findA (setA st.vehicles v.id v2) vid = findA st.vehicles vid := by
    intro vid hne
    rw [findA_setA, if_neg (fun h => hne h.symm)]
  have hlookself : findA (setA st.vehicles v.id v2) v.id = some v2 := by
    rw [findA_setA, if_pos rfl]
  -- old-entry transfer
  have hold : ∀ iid2 q d vid, findA st.queues iid2 = some q → vid ∈ q.get d →
      ∃ w seg rest road, findA (setA st.vehicles v.id v2) vid = some w ∧
        w.currentIntersectionId = some iid2 ∧ w.route = seg :: rest ∧
        findA roads1 seg.roadId = some road ∧ road.direction = d := by
    intro iid2 q d vid hfq hvq
    by_cases hvne : vid = v.id
    · subst hvne
      obtain ⟨heq, seg0, rest0, road0, hroute0, hrd0, hdir0⟩ := hprev iid2 q d hfq hvq
      subst heq
      obtain ⟨rd2, hrd2, hdir2⟩ := hpres _ _ hrd0
      exact ⟨v2, seg0, rest0, rd2, hlookself, by rw [hci2], hroute0, hrd2,
        by rw [hdir2, hdir0]⟩
    · obtain ⟨w, seg, rest, road, hw, hciid, hroute, hrd, hdir⟩ := hmem iid2 q d vid hfq hvq
      obtain ⟨rd2, hrd2, hdir2⟩ := hpres _ _ hrd
      exact ⟨w, seg, rest, rd2, by rw [hlook vid hvne]; exact hw, hciid, hroute, hrd2,
        by rw [hdir2, hdir]⟩
  rcases enqueue_queues_cases v1 inter.id st.roads st.queues with heq | hcase
  · rw [heq]
    refine ⟨hwfV1, hwfR1, hwfI, hqnd, ?_⟩
    intro iid2 q d vid hfq hvq
    exact hold iid2 q d vid hfq hvq
  · obtain ⟨seg1, rest1, road1, q0, hroute1, hrd1, hq0, hnm, heq⟩ := hcase
    rw [heq]
    refine ⟨hwfV1, hwfR1, hwfI, ?_, ?_⟩
    · intro iid2 q hfq d
      rw [findA_setA] at hfq
      by_cases hk : inter.id = iid2
      · rw [if_pos hk] at hfq
        injection hfq with hfq2
        subst hfq2
        by_cases hd : d = road1.direction
        · subst hd
          rw [IntersectionQueues.get_set_self]
          have hnd0 := hqnd _ _ (hk ▸ hq0) road1.direction
          rw [List.nodup_append]
          refine ⟨hnd0, List.nodup_singleton _, ?_⟩
          intro a ha hb2
          rw [List.mem_singleton] at hb2
          subst hb2
          exact hnm ha
        · rw [IntersectionQueues.get_set_ne _ _ _ _ hd]
          exact hqnd _ _ (hk ▸ hq0) d
      · rw [if_neg hk] at hfq
        exact hqnd _ _ hfq d
    · intro iid2 q d vid hfq hvq
      rw [findA_setA] at hfq
      by_cases hk : inter.id = iid2
      · rw [if_pos hk] at hfq
        injection hfq with hfq2
        subst hfq2
        by_cases hd : d = road1.direction
        · subst hd
          rw [IntersectionQueues.get_set_self] at hvq
          rw [List.mem_append, List.mem_singleton] at hvq
          rcases hvq with hvq | hvq
          · exact hold iid2 q0 _ vid (hk ▸ hq0) hvq
          · subst hvq
            obtain ⟨rd2, hrd2, hdir2⟩ := hpres _ _ hrd1
            refine ⟨v2, seg1, rest1, rd2, ?_, ?_, ?_, hrd2, hdir2⟩
            · rw [hid1]
              exact hlookself
            · rw [hci2, hkey.symm.trans hk]
            · rw [← hroute12, hroute1]
        · rw [IntersectionQueues.get_set_ne _ _ _ _ hd] at hvq
          exact hold iid2 q0 d vid (hk ▸ hq0) hvq
      · rw [if_neg hk] at hfq
        exact hold iid2 q d vid hfq hvq

theorem queueInv_dequeue_update (st : SimState) (v v1 : Vehicle) (iid : String)
    (inter : Intersection) (hinv : QueueInv st)
    (hb : findA st.vehicles v.id = some v)
    (hci : v.currentIntersectionId = some iid)
    (hfi : findA st.intersections iid = some inter)
    (hid1 : v1.id = v.id) (hci1 : v1.currentIntersectionId = none) :
    QueueInv { st with
      vehicles := setA st.vehicles v.id v1
      queues := dequeueVehicleFromIntersection v.id inter.id st.queues } := by
  obtain ⟨⟨hnd, hids⟩, hwfR, hwfI, hqnd, hmem⟩ := hinv
  have hkey : inter.id = iid := hwfI _ (findA_mem hfi)
  have hwfV1 : WFVehicles (setA st.vehicles v.id v1) := by
    refine ⟨nodupKeys_setA _ _ _ hnd, ?_⟩
    intro p hp
    rcases mem_setA hp with h | h
    · exact hids p h
    · rw [h]
      exact hid1
  -- every id still queued afterwards is an old entry other than v.id
  have hold : ∀ iid2 q d vid, findA st.queues iid2 = some q → vid ∈ q.get d →
      vid ≠ v.id →
      ∃ w seg rest road, findA (setA st.vehicles v.id v1) vid = some w ∧
        w.currentIntersectionId = some iid2 ∧ w.route = seg :: rest ∧
        findA st.roads seg.roadId = some road ∧ road.direction = d := by
    intro iid2 q d vid hfq hvq hvne
    obtain ⟨w, seg, rest, road, hw, hciid, hroute, hrd, hdir⟩ := hmem iid2 q d vid hfq hvq
    refine ⟨w, seg, rest, road, ?_, hciid, hroute, hrd, hdir⟩
    rw [findA_setA, if_neg (fun h => hvne h.symm)]
    exact hw
  rcases dequeue_queues_cases v.id inter.id st.queues with ⟨hqnone, heq⟩ | ⟨q0, hq0, heq⟩
  · rw [heq]
    refine ⟨hwfV1, hwfR, hwfI, hqnd, ?_⟩
    intro iid2 q d vid hfq hvq
    refine hold iid2 q d vid hfq hvq ?_
    intro hvne
    subst hvne
    obtain ⟨w, seg, rest, road, hw, hciid, hroute, hrd, hdir⟩ := hmem iid2 q d _ hfq hvq
    rw [hb] at hw
    injection hw with hw2
    subst hw2
    rw [hci] at hciid
    injection hciid with hciid2
    subst hciid2
    rw [← hkey] at hfq
    rw [hqnone] at hfq
    exact Option.noConfusion hfq
  · rw [heq]
    refine ⟨hwfV1, hwfR, hwfI, ?_, ?_⟩
    · intro iid2 q hfq d
      rw [findA_setA] at hfq
      by_cases hk : inter.id = iid2
      · rw [if_pos hk] at hfq
        injection hfq with hfq2
        subst hfq2
        rw [mergedErase_get]
        exact (hqnd _ _ (hk ▸ hq0) d).erase _
      · rw [if_neg hk] at hfq
        exact hqnd _ _ hfq d
    · intro iid2 q d vid hfq hvq
      rw [findA_setA] at hfq
      by_cases hk : inter.id = iid2
      · rw [if_pos hk] at hfq
        injection hfq with hfq2
        subst hfq2
        rw [mergedErase_get] at hvq
        have hvne : vid ≠ v.id := by
          intro he
          subst he
          exact (List.Nodup.mem_erase_iff (hqnd _ _ (hk ▸ hq0) d)).mp hvq |>.1 rfl
        exact hold iid2 q0 d vid (hk ▸ hq0) (List.mem_of_mem_erase hvq) hvne
      · rw [if_neg hk] at hfq
        refine hold iid2 q d vid hfq hvq ?_
        intro hvne
        subst hvne
        obtain ⟨w, seg, rest, road, hw, hciid, hroute, hrd, hdir⟩ := hmem iid2 q d _ hfq hvq
        rw [hb] at hw
        injection hw with hw2
        subst hw2
        rw [hci] at hciid
        injection hciid with hciid2
        rw [← hciid2] at hk
        exact hk hkey

theorem queueInv_dequeue_only (st : SimState) (vid0 key : String) (hinv : QueueInv st) :
    QueueInv { st with queues := dequeueVehicleFromIntersection vid0 key st.queues } := by
  obtain ⟨hwfV, hwfR, hwfI, hqnd, hmem⟩ := hinv
  rcases dequeue_queues_cases vid0 key st.queues with ⟨_, heq⟩ | ⟨q0, hq0, heq⟩
  · rw [heq]
    exact ⟨hwfV, hwfR, hwfI, hqnd, hmem⟩
  · rw [heq]
    refine ⟨hwfV, hwfR, hwfI, ?_, ?_⟩
    · intro iid q hfq d
      rw [findA_setA] at hfq
      by_cases hk : key = iid
      · rw [if_pos hk] at hfq
        injection hfq with hfq2
        subst hfq2
        rw [mergedErase_get]
        exact (hqnd _ _ (hk ▸ hq0) d).erase _
      · rw [if_neg hk] at hfq
        exact hqnd _ _ hfq d
    · intro iid q d vid hfq hvq
      rw [findA_setA] at hfq
      by_cases hk : key = iid
      · rw [if_pos hk] at hfq
        injection hfq with hfq2
        subst hfq2
        rw [mergedErase_get] at hvq
        exact hmem iid q0 d vid (hk ▸ hq0) (List.mem_of_mem_erase hvq)
      · rw [if_neg hk] at hfq
        exact hmem iid q d vid hfq hvq

theorem queueInv_release (st : SimState) (inter : Intersection) (hinv : QueueInv st) :
    QueueInv { st with queues := processIntersectionQueues inter st.vehicles st.queues } := by
  have hstep : ∀ (qs : List (String × IntersectionQueues)) (vid : String),
      QueueInv { st with queues := qs } →
      QueueInv { st with queues := releaseQueueVehicle inter st.vehicles qs vid } := by
    intro qs vid hq
    rcases hv : findA st.vehicles vid with _ | w
    · simp only [releaseQueueVehicle, hv]
      exact hq
    · by_cases hw : w.currentIntersectionId = some inter.id
      · simp only [releaseQueueVehicle, hv]
        rw [if_pos hw]
        exact queueInv_dequeue_only { st with queues := qs } vid inter.id hq
      · simp only [releaseQueueVehicle, hv]
        rw [if_neg hw]
        exact hq
  have hinner : ∀ (ids : List String) (qs : List (String × IntersectionQueues)),
      QueueInv { st with queues := qs } →
      QueueInv { st with queues := ids.foldl (fun qs2 vid => releaseQueueVehicle inter st.vehicles qs2 vid) qs } := by
    intro ids
    induction ids with
    | nil =>
        intro qs hq
        exact hq
    | cons a rest ih =>
        intro qs hq
        rw [List.foldl_cons]
        exact ih _ (hstep qs a hq)
  have houter : ∀ (dirs : List Dir) (qs : List (String × IntersectionQueues)),
      QueueInv { st with queues := qs } →
      QueueInv { st with queues := dirs.foldl (fun qs2 direction => List.foldl (fun qs3 vid => releaseQueueVehicle inter st.vehicles qs3 vid) qs2 (match findA qs2 inter.id with | some q => q.get direction | none => [])) qs } := by
    intro dirs
    induction dirs with
    | nil =>
        intro qs hq
        exact hq
    | cons d rest ih =>
        intro qs hq
        rw [List.foldl_cons]
        apply ih
        exact hinner _ _ hq
  unfold processIntersectionQueues
  rcases hq : findA st.queues inter.id with _ | q0
  · exact hinv
  · exact houter (releaseDirections inter) st.queues hinv

theorem queueInv_spawn (st : SimState) (v : Vehicle) (hinv : QueueInv st)
    (hfresh : findA st.vehicles v.id = none) : QueueInv (spawnVehicle v st) := by
  obtain ⟨⟨hnd, hids⟩, hwfR, hwfI, hqnd, hmem⟩ := hinv
  unfold spawnVehicle
  refine ⟨⟨nodupKeys_setA _ _ _ hnd, ?_⟩, hwfR, hwfI, hqnd, ?_⟩
  · intro p hp
    rcases mem_setA hp with h | h
    · exact hids p h
    · rw [h]
  · intro iid q d vid hfq hvq
    obtain ⟨w, seg, rest, road, hw, hciid, hroute, hrd, hdir⟩ := hmem iid q d vid hfq hvq
    have hvne : ¬(v.id = vid) := by
      intro he
      rw [← he, hfresh] at hw
      exact Option.noConfusion hw
    refine ⟨w, seg, rest, road, ?_, hciid, hroute, hrd, hdir⟩
    rw [findA_setA, if_neg hvne]
    exact hw

theorem queueInv_setIntersections (st : SimState) (I : List (String × Intersection))
    (hinv : QueueInv st) (hwfI1 : WFIntersections I) :
    QueueInv { st with intersections := I } :=
  ⟨hinv.wfV, hinv.wfR, hwfI1, hinv.qnodup, hinv.member⟩

theorem queueInv_init (st : SimState) (hwfV : WFVehicles st.vehicles)
    (hwfR : WFRoads st.roads) (hwfI : WFIntersections st.intersections)
    (hq : ∀ iid q, findA st.queues iid = some q → q = emptyQueues) : QueueInv st := by
  refine ⟨hwfV, hwfR, hwfI, ?_, ?_⟩
  · intro iid q hfq d
    rw [hq _ _ hfq, emptyQueues_get]
    exact List.nodup_nil
  · intro iid q d vid hfq hvq
    rw [hq _ _ hfq, emptyQueues_get] at hvq
    exact absurd hvq (List.not_mem_nil _)

/-- One movement-pass vehicle step preserves the queue invariant. -/
theorem queueInv_processVehicle (dt : ℚ) (v : Vehicle) (st : SimState)
    (hinv : QueueInv st) (hb : findA st.vehicles v.id = some v) :
    QueueInv (processVehicle dt v st) := by
  have hpresid : ∀ k rd, findA st.roads k = some rd →
      ∃ rd2, findA st.roads k = some rd2 ∧ rd2.direction = rd.direction :=
    fun k rd h => ⟨rd, h, rfl⟩
  rcases hr : v.route with _ | ⟨seg, rest⟩
  · rw [processVehicle_nil dt v st hr]
    exact queueInv_delete st v hinv hb hr
  · rcases hci : v.currentIntersectionId with _ | iid
    · -- moving along a road
      rcases hfr : findA st.roads seg.roadId with _ | road
      · simp only [processVehicle, hr, hci, hfr]
        exact hinv
      · have hocc := fun X => roads_occupancy_preserves st.roads seg.roadId road X hinv.wfR hfr
        rcases hto : findA st.intersections seg.toIntersectionId with _ | toInter <;>
          rcases hfrom : findA st.intersections seg.fromIntersectionId with _ | fromI <;>
            simp only [processVehicle, hr, hci, hfr, hto, hfrom] <;>
              (repeat' split) <;>
                first
                  | exact hinv
                  | exact queueInv_unqueued_update st v _ _ hinv hb hci rfl rfl
                      (hocc _).1 (hocc _).2
                  | exact queueInv_unqueued_update st v _ _ hinv hb hci rfl hci
                      (hocc _).1 (hocc _).2
                  | (refine queueInv_enqueue_update st v _ _ seg.toIntersectionId toInter _
                      hinv hb hto rfl rfl rfl rfl ?_ (hocc _).1 (hocc _).2
                     intro iid2 q d hfq hvq
                     exfalso
                     obtain ⟨w, _, _, _, hw, hciid, _, _, _⟩ :=
                       hinv.member iid2 q d v.id hfq hvq
                     rw [hb] at hw
                     injection hw with hw2
                     subst hw2
                     rw [hci] at hciid
                     exact Option.noConfusion hciid)
    · -- waiting at an intersection
      rcases hfi : findA st.intersections iid with _ | inter
      · simp only [processVehicle, hr, hci, hfi]
        exact hinv
      · simp only [processVehicle, hr, hci, hfi]
        split
        · exact queueInv_dequeue_update st v _ iid inter hinv hb hci hfi rfl rfl
        · refine queueInv_enqueue_update st v _ _ iid inter st.roads hinv hb hfi
            rfl rfl rfl rfl ?_ hinv.wfR hpresid
          intro iid2 q d hfq hvq
          obtain ⟨w, seg2, rest2, road2, hw, hciid, hroute2, hrd2, hdir2⟩ :=
            hinv.member iid2 q d v.id hfq hvq
          rw [hb] at hw
          injection hw with hw2
          subst hw2
          rw [hci] at hciid
          injection hciid with he
          rw [hr] at hroute2
          exact ⟨he.symm, seg2, rest2, road2, hroute2, hrd2, hdir2⟩

/-! ## Fold-level lemmas for the movement pass -/

theorem queueInv_move_fold (dt : ℚ) (vs : List Vehicle) :
    ∀ st : SimState, QueueInv st → (∀ w ∈ vs, findA st.vehicles w.id = some w) →
    (vs.map (fun w => w.id)).Nodup →
    QueueInv (vs.foldl (fun acc w => processVehicle dt w acc) st) := by
  induction vs with
  | nil =>
      intro st hinv _ _
      exact hinv
  | cons w ws ih =>
      intro st hinv hbs hnd
      rw [List.foldl_cons]
      rw [List.map_cons, List.nodup_cons] at hnd
      apply ih
      · exact queueInv_processVehicle dt w st hinv (hbs w (List.mem_cons_self _ _))
      · intro u hu
        have hne : ¬(w.id = u.id) := by
          intro he
          exact hnd.1 (he ▸ List.mem_map_of_mem (fun x => x.id) hu)
        rw [processVehicle_vehicles_ne dt w st u.id hne]
        exact hbs u (List.mem_cons_of_mem _ hu)
      · exact hnd.2

theorem vehicles_snapshot_ids (st : SimState) (hwf : WFVehicles st.vehicles) :
    ((st.vehicles.map Prod.snd).map (fun w => w.id)).Nodup ∧
    ∀ w ∈ st.vehicles.map Prod.snd, findA st.vehicles w.id = some w := by
  obtain ⟨hnd, hids⟩ := hwf
  constructor
  · have hmm : (st.vehicles.map Prod.snd).map (fun w => w.id) = keysA st.vehicles := by
      rw [List.map_map]
      exact List.map_congr_left (fun p hp => hids p hp)
    rw [hmm]
    exact hnd
  · intro w hw
    obtain ⟨p, hp, hpw⟩ := List.mem_map.mp hw
    obtain ⟨k, w2⟩ := p
    have hw2 : w2 = w := hpw
    subst hw2
    have hk : w2.id = k := hids _ hp
    rw [hk]
    exact findA_of_mem_nodup hnd hp

theorem queueInv_move (dt : ℚ) (st : SimState) (hinv : QueueInv st) :
    QueueInv (updateVehicleMovement dt st) := by
  obtain ⟨hnd2, hbs⟩ := vehicles_snapshot_ids st hinv.wfV
  exact queueInv_move_fold dt (st.vehicles.map Prod.snd) st hinv hbs hnd2

/-- Every reachable simulation state satisfies the queue invariant. -/
theorem reachable_queueInv (st : SimState) (h : Reachable st) : QueueInv st := by
  induction h with
  | init st hwfV hwfR hwfI hq => exact queueInv_init st hwfV hwfR hwfI hq
  | move dt st _ ih => exact queueInv_move dt st ih
  | release st inter _ ih => exact queueInv_release st inter ih
  | spawn st v _ hfresh ih => exact queueInv_spawn st v ih hfresh
  | updateSignals st I _ hwfI1 ih => exact queueInv_setIntersections st I ih hwfI1

theorem movementFold_findA_ne (dt : ℚ) (vs : List Vehicle) :
    ∀ (st : SimState) (k : String), (∀ w ∈ vs, ¬(w.id = k)) →
    findA ((vs.foldl (fun acc w => processVehicle dt w acc) st).vehicles) k =
      findA st.vehicles k := by
  induction vs with
  | nil =>
      intro st k _
      rfl
  | cons w ws ih =>
      intro st k hk
      rw [List.foldl_cons, ih _ _ (fun u hu => hk u (List.mem_cons_of_mem _ hu)),
        processVehicle_vehicles_ne dt w st k (hk w (List.mem_cons_self _ _))]

theorem movementFold_wf (dt : ℚ) (vs : List Vehicle) :
    ∀ st : SimState, WFVehicles st.vehicles →
    (∀ w ∈ vs, findA st.vehicles w.id = some w) → (vs.map (fun w => w.id)).Nodup →
    WFVehicles ((vs.foldl (fun acc w => processVehicle dt w acc) st).vehicles) := by
  induction vs with
  | nil =>
      intro st hwf _ _
      exact hwf
  | cons w ws ih =>
      intro st hwf hbs hnd
      rw [List.foldl_cons]
      rw [List.map_cons, List.nodup_cons] at hnd
      apply ih
      · exact processVehicle_wfVehicles dt w st hwf (hbs w (List.mem_cons_self _ _))
      · intro u hu
        have hne : ¬(w.id = u.id) := by
          intro he
          exact hnd.1 (he ▸ List.mem_map_of_mem (fun x => x.id) hu)
        rw [processVehicle_vehicles_ne dt w st u.id hne]
        exact hbs u (List.mem_cons_of_mem _ hu)
      · exact hnd.2

theorem movementFold_intersections (dt : ℚ) (vs : List Vehicle) :
    ∀ st : SimState,
    (vs.foldl (fun acc w => processVehicle dt w acc) st).intersections = st.intersections := by
  induction vs with
  | nil =>
      intro st
      rfl
  | cons w ws ih =>
      intro st
      rw [List.foldl_cons, ih, processVehicle_intersections]

theorem roads_after_processVehicle (dt : ℚ) (v : Vehicle) (st : SimState)
    (hwr : WFRoads st.roads) :
    WFRoads (processVehicle dt v st).roads ∧
    ∀ k, (findA (processVehicle dt v st).roads k = none ↔ findA st.roads k = none) := by
  have hkeep : ∀ (road : Road) (rid : String) (X : List (String × Vehicle)),
      findA st.roads rid = some road →
      WFRoads (setA st.roads road.id (updateRoadOccupancy road X)) ∧
      ∀ k, (findA (setA st.roads road.id (updateRoadOccupancy road X)) k = none ↔
        findA st.roads k = none) := by
    intro road rid X hfr
    have hkey : road.id = rid := hwr _ (findA_mem hfr)
    refine ⟨wfRoads_setA _ _ _ hwr rfl, ?_⟩
    intro k
    rw [findA_setA]
    by_cases h : road.id = k
    · rw [if_pos h]
      constructor
      · intro hx
        exact Option.noConfusion hx
      · intro hx
        rw [← h, hkey, hfr] at hx
        exact Option.noConfusion hx
    · rw [if_neg h]
  rcases hr : v.route with _ | ⟨seg, rest⟩
  · simp only [processVehicle, hr]
    exact ⟨hwr, fun k => by trivial⟩
  · rcases hci : v.currentIntersectionId with _ | iid
    · rcases hfr : findA st.roads seg.roadId with _ | road
      · simp only [processVehicle, hr, hci, hfr]
        exact ⟨hwr, fun k => by trivial⟩
      · rcases hto : findA st.intersections seg.toIntersectionId with _ | toInter <;>
          rcases hfrom : findA st.intersections seg.fromIntersectionId with _ | fromI <;>
            simp only [processVehicle, hr, hci, hfr, hto, hfrom] <;>
              (repeat' split) <;>
                exact hkeep road seg.roadId _ hfr
    · rcases hfi : findA st.intersections iid with _ | inter <;>
        simp only [processVehicle, hr, hci, hfi]
      · exact ⟨hwr, fun k => by trivial⟩
      · split <;> exact ⟨hwr, fun k => by trivial⟩

theorem movementFold_roads (dt : ℚ) (vs : List Vehicle) :
    ∀ st : SimState, WFRoads st.roads →
    WFRoads ((vs.foldl (fun acc w => processVehicle dt w acc) st).roads) ∧
    ∀ k, (findA ((vs.foldl (fun acc w => processVehicle dt w acc) st).roads) k = none ↔
      findA st.roads k = none) := by
  induction vs with
  | nil =>
      intro st hwr
      exact ⟨hwr, fun k => Iff.rfl⟩
  | cons w ws ih =>
      intro st hwr
      rw [List.foldl_cons]
      obtain ⟨h1, h2⟩ := roads_after_processVehicle dt w st hwr
      obtain ⟨h3, h4⟩ := ih (processVehicle dt w st) h1
      exact ⟨h3, fun k => (h4 k).trans (h2 k)⟩

/-- The missing-referenced-entity paths of the vehicle step. -/
theorem processVehicle_road_missing (dt : ℚ) (v : Vehicle) (st : SimState)
    (seg : RouteSegment) (rest : List RouteSegment) (hr : v.route = seg :: rest)
    (hci : v.currentIntersectionId = none)
    (hfr : findA st.roads seg.roadId = none) : processVehicle dt v st = st := by
  simp only [processVehicle, hr, hci, hfr]

theorem processVehicle_intersection_missing (dt : ℚ) (v : Vehicle) (st : SimState)
    (seg : RouteSegment) (rest : List RouteSegment) (iid : String)
    (hr : v.route = seg :: rest) (hci : v.currentIntersectionId = some iid)
    (hfi : findA st.intersections iid = none) : processVehicle dt v st = st := by
  simp only [processVehicle, hr, hci, hfi]

theorem processVehicle_next_road_missing (dt : ℚ) (v : Vehicle) (st : SimState)
    (seg : RouteSegment) (rest : List RouteSegment) (iid : String) (inter : Intersection)
    (hr : v.route = seg :: rest) (hci : v.currentIntersectionId = some iid)
    (hfi : findA st.intersections iid = some inter)
    (hfr : findA st.roads seg.roadId = none) (hp : ¬(v.priority = Priority.emergency)) :
    processVehicle dt v st =
      { st with vehicles := setA st.vehicles v.id { v with waitTime := v.waitTime + dt } } := by
  have hcp : canVehicleProceedThroughIntersection v inter st.roads = false := by
    simp [canVehicleProceedThroughIntersection, hr, hp, hfr]
  have henq2 : ∀ w : Vehicle, w.route = seg :: rest →
      enqueueVehicleAtIntersection w inter.id st.roads st.queues = st.queues := by
    intro w hw
    simp [enqueueVehicleAtIntersection, hw, hfr]
  simp only [processVehicle, hr, hci, hfi, hcp, Bool.false_eq_true, if_false]
  rw [henq2 _ rfl]

/-- The final binding of a vehicle after a whole movement pass is whatever
its own step produces, for any predicate on that binding: the other
vehicles' steps touch neither this binding nor the intersections map nor
the set of road keys. -/
theorem movement_binding (dt : ℚ) (st : SimState) (vid : String) (v : Vehicle)
    (hwf : WFVehicles st.vehicles) (hwr : WFRoads st.roads)
    (hb : findA st.vehicles vid = some v) (P : Option Vehicle → Prop)
    (hstep : ∀ st1 : SimState, st1.intersections = st.intersections →
       WFVehicles st1.vehicles →
       (∀ k, (findA st1.roads k = none ↔ findA st.roads k = none)) →
       findA st1.vehicles v.id = some v →
       P (findA (processVehicle dt v st1).vehicles v.id)) :
    P (findA (updateVehicleMovement dt st).vehicles vid) := by
  obtain ⟨hnd2, hbs⟩ := vehicles_snapshot_ids st hwf
  have hvid : v.id = vid := hwf.2 _ (findA_mem hb)
  have hvmem : v ∈ st.vehicles.map Prod.snd := List.mem_map_of_mem Prod.snd (findA_mem hb)
  obtain ⟨pre, post, hsplit⟩ := List.append_of_mem hvmem
  have hndall : ((pre ++ v :: post).map (fun w => w.id)).Nodup := by
    rw [← hsplit]
    exact hnd2
  rw [List.map_append, List.map_cons] at hndall
  have hprene : ∀ w ∈ pre, ¬(w.id = v.id) := by
    intro w hw he
    have h1 : w.id ∈ pre.map (fun x => x.id) := List.mem_map_of_mem _ hw
    have hdisj := (List.nodup_append.mp hndall).2.2
    exact hdisj h1 (by rw [he]; exact List.mem_cons_self _ _)
  have hpostne : ∀ w ∈ post, ¬(w.id = v.id) := by
    intro w hw he
    have h2 := (List.nodup_append.mp hndall).2.1
    rw [List.nodup_cons] at h2
    exact h2.1 (by rw [← he]; exact List.mem_map_of_mem _ hw)
  have hmempre : ∀ w ∈ pre, w ∈ st.vehicles.map Prod.snd := by
    intro w hw
    rw [hsplit]
    exact List.mem_append_left _ hw
  have hmempost : ∀ w ∈ post, w ∈ st.vehicles.map Prod.snd := by
    intro w hw
    rw [hsplit]
    exact List.mem_append_right _ (List.mem_cons_of_mem _ hw)
  unfold updateVehicleMovement
  rw [hsplit, List.foldl_append, List.foldl_cons]
  have hb1 : findA (pre.foldl (fun acc w => processVehicle dt w acc) st).vehicles v.id =
      some v := by
    rw [movementFold_findA_ne dt pre st v.id hprene, hvid]
    exact hb
  have hwf1 : WFVehicles (pre.foldl (fun acc w => processVehicle dt w acc) st).vehicles :=
    movementFold_wf dt pre st hwf (fun w hw => hbs w (hmempre w hw))
      ((List.nodup_append.mp hndall).1)
  have hint1 : (pre.foldl (fun acc w => processVehicle dt w acc) st).intersections =
      st.intersections := movementFold_intersections dt pre st
  have hroads1 := movementFold_roads dt pre st hwr
  have hP := hstep (pre.foldl (fun acc w => processVehicle dt w acc) st)
    hint1 hwf1 hroads1.2 hb1
  rw [movementFold_findA_ne dt post _ vid
    (fun w hw he => hpostne w hw (he.trans hvid.symm)), ← hvid]
  exact hP

theorem wfVehicles_singleton (k : String) (v : Vehicle) (h : v.id = k) :
    WFVehicles [(k, v)] := by
  refine ⟨?_, ?_⟩
  · simp [NodupKeys, keysA]
  · intro p hp
    rw [List.mem_singleton] at hp
    subst hp
    exact h

theorem wfRoads_nil : WFRoads ([] : List (String × Road)) :=
  fun p hp => absurd hp (List.not_mem_nil _)

/-! ## Claim C4 -/

/-- C4 counterexample: a vehicle with an exhausted route standing at
`int-a` while its destination is the different intersection `int-b` is
nevertheless deleted by the movement pass — the claim says a vehicle not
at its destination is never deleted. -/
theorem removed_without_destination :
    vehC4.route = [] ∧ vehC4.currentIntersectionId = some "int-a" ∧
    vehC4.destinationIntersectionId = "int-b" ∧ ¬(("int-a" : String) = "int-b") ∧
    findA (updateVehicleMovement (1 / 10) stC4).vehicles "v4" = none := by
  refine ⟨rfl, rfl, rfl, by decide, rfl⟩

/-- C4 amended: in every movement pass over a well-formed state, a vehicle
is removed from the vehicles map exactly when its remaining route is
empty — its location relative to `destinationIntersectionId` plays no
part. -/
theorem vehicle_removed_iff (dt : ℚ) (st : SimState) (vid : String) (v : Vehicle)
    (hwf : WFVehicles st.vehicles) (hwr : WFRoads st.roads)
    (hb : findA st.vehicles vid = some v) :
    (findA (updateVehicleMovement dt st).vehicles vid = none ↔ v.route = []) := by
  rcases hroute : v.route with _ | ⟨seg, rest⟩
  · refine iff_of_true ?_ rfl
    exact movement_binding dt st vid v hwf hwr hb (fun o => o = none)
      (fun st1 _ hwf1 _ _ => by
        rw [processVehicle_nil dt v st1 hroute]
        exact findA_eraseA_self _ _ hwf1.1)
  · refine iff_of_false ?_ (by simp)
    exact movement_binding dt st vid v hwf hwr hb (fun o => ¬(o = none))
      (fun st1 _ _ _ hb1 => by
        obtain ⟨w, hw⟩ := processVehicle_cons_isSome dt v st1 seg rest hroute hb1
        rw [hw]
        simp)

/-- C4 witness: the removal criterion instantiated on a concrete
one-vehicle state whose vehicle still has a route. -/
theorem vehicle_removed_iff_witness :
    (findA (updateVehicleMovement (1 / 10) stC4w).vehicles "w4" = none ↔
      vehC4w.route = []) :=
  vehicle_removed_iff (1 / 10) stC4w "w4" vehC4w
    (wfVehicles_singleton "w4" vehC4w rfl) wfRoads_nil rfl

/-! ## Claim C5 -/

/-- C5: in every reachable simulation state, a vehicle id appears in at
most one direction queue per intersection, and only while the vehicle
exists with `currentIntersectionId` equal to that intersection's id. -/
theorem queue_membership_invariant (st : SimState) (h : Reachable st) :
    (∀ iid q d d2 vid, findA st.queues iid = some q →
       vid ∈ q.get d → vid ∈ q.get d2 → d = d2) ∧
    (∀ iid q d vid, findA st.queues iid = some q → vid ∈ q.get d →
       ∃ v, findA st.vehicles vid = some v ∧ v.currentIntersectionId = some iid) := by
  have hinv := reachable_queueInv st h
  constructor
  · intro iid q d d2 vid hfq hd hd2
    obtain ⟨v1, seg1, rest1, road1, hv1, _, hroute1, hrd1, hdir1⟩ :=
      hinv.member iid q d vid hfq hd
    obtain ⟨v2, seg2, rest2, road2, hv2, _, hroute2, hrd2, hdir2⟩ :=
      hinv.member iid q d2 vid hfq hd2
    rw [hv1] at hv2
    injection hv2 with hv3
    subst hv3
    rw [hroute1] at hroute2
    injection hroute2 with hseg _
    subst hseg
    rw [hrd1] at hrd2
    injection hrd2 with hroad
    subst hroad
    rw [← hdir1, ← hdir2]
  · intro iid q d vid hfq hvq
    obtain ⟨v, _, _, _, hv, hciid, _, _, _⟩ := hinv.member iid q d vid hfq hvq
    exact ⟨v, hv, hciid⟩

/-- C5 witness: the invariant instantiated at a concrete freshly started
state with one empty queue record. -/
theorem queue_membership_invariant_witness :
    (∀ iid q d d2 vid, findA stC5.queues iid = some q →
       vid ∈ q.get d → vid ∈ q.get d2 → d = d2) ∧
    (∀ iid q d vid, findA stC5.queues iid = some q → vid ∈ q.get d →
       ∃ v, findA stC5.vehicles vid = some v ∧ v.currentIntersectionId = some iid) :=
  queue_membership_invariant stC5
    (Reachable.init stC5
      ⟨List.nodup_nil, fun p hp => absurd hp (List.not_mem_nil _)⟩
      (fun p hp => absurd hp (List.not_mem_nil _))
      (fun p hp => absurd hp (List.not_mem_nil _))
      (by
        intro iid q h
        by_cases hi : ("int-a" : String) = iid
        · rw [show findA stC5.queues iid = some emptyQueues from by rw [← hi]; rfl] at h
          injection h with h2
          exact h2.symm
        · rw [show findA stC5.queues iid = none from by
            show (if ("int-a" : String) = iid then some emptyQueues
              else findA [] iid) = none
            rw [if_neg hi]
            rfl] at h
          exact Option.noConfusion h))

/-! ## Claim C8 -/

/-- C8 counterexample: a queued vehicle whose next road id is absent from
the roads map is not left untouched by the tick — its wait time
increases by the tick's 0.1 s. -/
theorem missing_road_increments_wait :
    findA stC8.roads "ghost-road" = none ∧ vehC8.waitTime = 0 ∧
    findA (updateVehicleMovement (1 / 10) stC8).vehicles "v8" =
      some { vehC8 with waitTime := 1 / 10 } ∧
    ¬({ vehC8 with waitTime := 1 / 10 } = vehC8) := by
  have h3 : findA (updateVehicleMovement (1 / 10) stC8).vehicles "v8" =
      some { vehC8 with waitTime := vehC8.waitTime + 1 / 10 } :=
    movement_binding (1 / 10) stC8 "v8" vehC8 (wfVehicles_singleton "v8" vehC8 rfl)
      wfRoads_nil rfl
      (fun o => o = some { vehC8 with waitTime := vehC8.waitTime + 1 / 10 })
      (fun st1 hint1 _ hrd1 _ => by
        rw [processVehicle_next_road_missing (1 / 10) vehC8 st1
          ⟨"ghost-road", "int-a", "int-b", 1000⟩ [] "int-a" interC8 rfl rfl
          (by rw [hint1]; exact rfl) ((hrd1 _).mpr rfl) (by decide)]
        show findA (setA st1.vehicles vehC8.id _) vehC8.id = _
        rw [findA_setA, if_pos rfl])
  refine ⟨rfl, rfl, ?_, ?_⟩
  · rw [h3]
    norm_num [vehC8]
  · intro h
    have h2 := congrArg Vehicle.waitTime h
    simp only [vehC8] at h2
    norm_num at h2

/-- C8 amended: during a movement pass over a well-formed state, (a) a
moving vehicle whose current road id is absent is left entirely
unchanged, (b) a queued vehicle whose intersection id is absent is left
entirely unchanged, and (c) a queued non-emergency vehicle whose next
road id is absent is treated as not admitted: the only change to it is
`waitTime + dt` (its queues entry is not created since the road lookup
fails); no error is raised in any of these paths. -/
theorem missing_entity_tick (dt : ℚ) (st : SimState) (vid : String) (v : Vehicle)
    (hwf : WFVehicles st.vehicles) (hwr : WFRoads st.roads)
    (hb : findA st.vehicles vid = some v) :
    (∀ seg rest, v.route = seg :: rest → v.currentIntersectionId = none →
       findA st.roads seg.roadId = none →
       findA (updateVehicleMovement dt st).vehicles vid = some v) ∧
    (∀ seg rest iid, v.route = seg :: rest → v.currentIntersectionId = some iid →
       findA st.intersections iid = none →
       findA (updateVehicleMovement dt st).vehicles vid = some v) ∧
    (∀ seg rest iid inter, v.route = seg :: rest → v.currentIntersectionId = some iid →
       findA st.intersections iid = some inter → findA st.roads seg.roadId = none →
       ¬(v.priority = Priority.emergency) →
       findA (updateVehicleMovement dt st).vehicles vid =
         some { v with waitTime := v.waitTime + dt }) := by
  refine ⟨?_, ?_, ?_⟩
  · intro seg rest hroute hci hfr
    exact movement_binding dt st vid v hwf hwr hb (fun o => o = some v)
      (fun st1 _ _ hrd1 hb1 => by
        rw [processVehicle_road_missing dt v st1 seg rest hroute hci ((hrd1 _).mpr hfr)]
        exact hb1)
  · intro seg rest iid hroute hci hfi
    exact movement_binding dt st vid v hwf hwr hb (fun o => o = some v)
      (fun st1 hint1 _ _ hb1 => by
        rw [processVehicle_intersection_missing dt v st1 seg rest iid hroute hci
          (by rw [hint1]; exact hfi)]
        exact hb1)
  · intro seg rest iid inter hroute hci hfi hfr hp
    exact movement_binding dt st vid v hwf hwr hb
      (fun o => o = some { v with waitTime := v.waitTime + dt })
      (fun st1 hint1 _ hrd1 _ => by
        rw [processVehicle_next_road_missing dt v st1 seg rest iid inter hroute hci
          (by rw [hint1]; exact hfi) ((hrd1 _).mpr hfr) hp]
        show findA (setA st1.vehicles v.id _) v.id = _
        rw [findA_setA, if_pos rfl])

/-- C8 witness: case (c) instantiated at a concrete state whose queued
vehicle references the absent road `ghost-road`. -/
theorem missing_entity_tick_witness :
    findA (updateVehicleMovement (1 / 10) stC8).vehicles "v8" =
      some { vehC8 with waitTime := vehC8.waitTime + 1 / 10 } :=
  (missing_entity_tick (1 / 10) stC8 "v8" vehC8
      (wfVehicles_singleton "v8" vehC8 rfl) wfRoads_nil rfl).2.2
    ⟨"ghost-road", "int-a", "int-b", 1000⟩ [] "int-a" interC8 rfl rfl rfl rfl
    (by decide)

/-! ## Claim C10 -/

/-- C10 counterexample: a vehicle with an empty route standing at an
intersection is not "dequeued with its `currentIntersectionId` cleared"
on its next evaluation — it is deleted from the vehicles map outright,
before any queue processing. -/
theorem emptyRoute_vehicle_deleted :
    vehC10.route = [] ∧ vehC10.currentIntersectionId = some "int-a" ∧
    findA (updateVehicleMovement (1 / 10) stC10).vehicles "vten" = none :=
  ⟨rfl, rfl, rfl⟩

/-- C10 amended: the admissibility check does return true for every
empty-route vehicle regardless of the signal state (including yellow);
but the movement pass tests route emptiness first, so such a vehicle is
deleted from the vehicles map at the start of its evaluation and the
empty-route branch of the check is never reached from the tick. -/
theorem emptyRoute_admissible_and_removed :
    (∀ (v : Vehicle) (inter : Intersection) (roads : List (String × Road)),
       v.route = [] → canVehicleProceedThroughIntersection v inter roads = true) ∧
    (∀ (dt : ℚ) (st : SimState) (vid : String) (v : Vehicle),
       WFVehicles st.vehicles → WFRoads st.roads → findA st.vehicles vid = some v →
       v.route = [] → findA (updateVehicleMovement dt st).vehicles vid = none) := by
  constructor
  · intro v inter roads h
    simp [canVehicleProceedThroughIntersection, h]
  · intro dt st vid v hwf hwr hb hroute
    exact movement_binding dt st vid v hwf hwr hb (fun o => o = none)
      (fun st1 _ hwf1 _ _ => by
        rw [processVehicle_nil dt v st1 hroute]
        exact findA_eraseA_self _ _ hwf1.1)

/-- C10 witness: both parts at concrete inputs — the empty-route check
passes under a double-yellow signal, and the concrete empty-route vehicle
is removed by the pass. -/
theorem emptyRoute_admissible_and_removed_witness :
    canVehicleProceedThroughIntersection vehC10 interC10y [] = true ∧
    findA (updateVehicleMovement (1 / 10) stC10).vehicles "vten" = none :=
  ⟨emptyRoute_admissible_and_removed.1 vehC10 interC10y [] rfl,
   emptyRoute_admissible_and_removed.2 (1 / 10) stC10 "vten" vehC10
     (wfVehicles_singleton "vten" vehC10 rfl) wfRoads_nil rfl rfl⟩

/-! ## Claim C3: the route planner -/

theorem getOrInfinity_of_zero_or_inf (distances : List (String × JNum))
    (h : ∀ p ∈ distances, Prod.snd p = JNum.fin 0 ∨ Prod.snd p = JNum.inf)
    (node : String) : getOrInfinity distances node = JNum.inf := by
  unfold getOrInfinity
  rcases hf : findA distances node with _ | val
  · rfl
  · rcases h _ (findA_mem hf) with h2 | h2 <;>
      simp only at h2 <;> subst h2 <;> simp

theorem JNum_inf_ltb (x : JNum) : JNum.inf.ltb x = false := rfl

theorem scanMin_of_zero_or_inf (distances : List (String × JNum))
    (h : ∀ p ∈ distances, Prod.snd p = JNum.fin 0 ∨ Prod.snd p = JNum.inf)
    (unvisited : List String) : scanMin distances unvisited = ("", JNum.inf) := by
  unfold scanMin
  have hgen : ∀ (l : List String) (acc : String × JNum), acc.2 = JNum.inf →
      l.foldl (fun acc node =>
        let distance := getOrInfinity distances node
        if distance.ltb acc.2 then (node, distance) else acc) acc = acc := by
    intro l
    induction l with
    | nil =>
        intro acc _
        rfl
    | cons a rest ih =>
        intro acc hacc
        rw [List.foldl_cons]
        have hdist := getOrInfinity_of_zero_or_inf distances h a
        simp only [hdist, JNum_inf_ltb, Bool.false_eq_true, if_false]
        exact ih acc hacc
  exact hgen unvisited ("", JNum.inf) rfl

theorem dijkstraLoop_of_zero_or_inf (endId : String)
    (adjacency : List (String × List Neighbor)) (fuel : ℕ) (unvisited : List String)
    (distances : List (String × JNum)) (previous : List (String × Option PrevEntry))
    (h : ∀ p ∈ distances, Prod.snd p = JNum.fin 0 ∨ Prod.snd p = JNum.inf) :
    dijkstraLoop endId adjacency fuel unvisited distances previous =
      (distances, previous) := by
  cases fuel with
  | zero => rfl
  | succ n =>
      cases unvisited with
      | nil => rfl
      | cons u rest =>
          simp only [dijkstraLoop, scanMin_of_zero_or_inf distances h (u :: rest)]
          by_cases he : ("" : String) = endId <;> simp [he]

theorem reconstructRoute_of_all_none (roads : List Road)
    (previous : List (String × Option PrevEntry))
    (h : ∀ p ∈ previous, Prod.snd p = (none : Option PrevEntry)) (fuel : ℕ)
    (node : String) (acc : List RouteSegment) :
    reconstructRoute roads previous fuel node acc = acc := by
  cases fuel with
  | zero => rfl
  | succ n =>
      unfold reconstructRoute
      rcases hf : findA previous node with _ | val
      · rfl
      · have hval : val = none := h _ (findA_mem hf)
        subst hval
        rfl

/-- C3: `calculateRoute` returns the empty route for every pair of
intersection ids and every network state.  The scan for the minimum
unvisited distance reads the table through `distances.get(node) ||
Infinity`; since JS `||` treats the number 0 as falsy, the source's own
distance 0 is read back as `Infinity`, the very first iteration of the
Dijkstra loop finds `minDistance === Infinity` and breaks, no `previous`
entry is ever written, and the reconstruction loop never runs. -/
theorem calculateRoute_always_empty (startId endId : String) (st : SimState) :
    calculateRoute startId endId st = [] := by
  unfold calculateRoute
  dsimp only
  have hd : ∀ p ∈ (st.intersections.map Prod.snd).map
      (fun i => (i.id, if i.id = startId then JNum.fin 0 else JNum.inf)),
      Prod.snd p = JNum.fin 0 ∨ Prod.snd p = JNum.inf := by
    intro p hp
    simp only [List.mem_map] at hp
    obtain ⟨i, _, rfl⟩ := hp
    by_cases h : i.id = startId <;> simp [h]
  have hp : ∀ p ∈ (st.intersections.map Prod.snd).map
      (fun i => (i.id, (none : Option PrevEntry))),
      Prod.snd p = (none : Option PrevEntry) := by
    intro p hp
    simp only [List.mem_map] at hp
    obtain ⟨i, _, rfl⟩ := hp
    rfl
  rw [dijkstraLoop_of_zero_or_inf _ _ _ _ _ _ hd]
  exact reconstructRoute_of_all_none _ _ hp _ _ _

end TrafficViz
